import Mathlib

/-! Principia: adaptive Hermite-spline fitting, Kepler orbits, the ephemeris, the iteration
over a rendered trajectory and the pile-up.

A shallow embedding of `numerics/fit_hermite_spline_body.hpp`,
`physics/kepler_orbit_body.hpp`, `physics/ephemeris_body.hpp`, the iteration functions of
`ksp_plugin/interface.cpp` and `PileUp::AdvanceTime` of `ksp_plugin/pile_up.cpp`, followed by
the properties established about them.

Conventions of the embedding.

* A `Samples` container is a view `[first, last)` into an underlying sequence `data`; an
  iterator is the position (a `Nat`) it designates in `data`.  `samples.begin()` is `first`,
  `samples.end()` is `last`, and `Range(a, b)` is the view `[a, b)` of the same `data`.
* `Hermite3` and its `LInfinityError` live in `numerics/hermite3.hpp`; they are taken as
  parameters (`SplineOps`), together with the three accessors the caller supplies.
* `FitHermiteSpline` recurses on `Range(lower, samples.end())`, which is not always shorter
  than its input, so the recursion carries a depth budget: `none` means the budget ran out.
* Every evaluation of `LInfinityError` is logged, so that statements about which errors are
  evaluated can be made.
-/

namespace principia
namespace numerics

/-- The collaborators of `FitHermiteSpline`: the accessors `get_argument`, `get_value`,
`get_derivative` passed by the caller, the constructor of `Hermite3<Argument, Value>` and its
member `LInfinityError(samples, get_argument, get_value)`. -/
structure SplineOps (S A V D H E : Type) where
  get_argument : S → A
  get_value : S → V
  get_derivative : S → D
  Hermite3 : A × A → V × V → D × D → H
  LInfinityError : H → List S → (S → A) → (S → V) → E

section fit

variable {S A V D H E : Type} [LinearOrder E]

/-- The samples designated by `Range(lower, upper)`: positions `lower`, ..., `upper - 1`. -/
def Range (data : List S) (lower upper : Nat) : List S :=
  (data.drop lower).take (upper - lower)

/-- The lambda `interpolate_range(begin, end)`: the Hermite cubic through the sample at `begin`
and the sample at `--end`.  Dereferencing a position outside `data` has no value. -/
def interpolate_range (ops : SplineOps S A V D H E) (data : List S) (first last : Nat) :
    Option H :=
  match data[first]?, data[last - 1]? with
  | some b, some l =>
      some (ops.Hermite3 (ops.get_argument b, ops.get_argument l)
        (ops.get_value b, ops.get_value l)
        (ops.get_derivative b, ops.get_derivative l))
  | _, _ => none

/-- The condition
`interpolate_range(a, b).LInfinityError(Range(a, b), get_argument, get_value) < tolerance`
of both `if` statements. -/
def fitsTolerance (ops : SplineOps S A V D H E) (tolerance : E) (data : List S)
    (first last : Nat) : Bool :=
  match interpolate_range ops data first last with
  | some h =>
      decide (ops.LInfinityError h (Range data first last) ops.get_argument ops.get_value
        < tolerance)
  | none => false

/-- The `for (;;)` loop of `FitHermiteSpline`, from the state `(lower, upper)`.  It returns the
final `lower` and the ranges on which `LInfinityError` was evaluated, in order.  The first
argument bounds the number of iterations; `upper - lower` is enough, since each iteration at
least halves it (see `bisectLoop_bound`), and with `upper - lower = 0` the source computes
`middle == lower` and breaks. -/
def bisectLoop (ops : SplineOps S A V D H E) (tolerance : E) (data : List S) :
    Nat → Nat → Nat → Nat × List (Nat × Nat)
  | 0, lower, _ => (lower, [])
  | k + 1, lower, upper =>
      let middle := lower + (upper - lower) / 2
      if middle = lower then (lower, [])
      else if fitsTolerance ops tolerance data lower middle then
        let r := bisectLoop ops tolerance data k middle upper
        (r.1, (lower, middle) :: r.2)
      else
        let r := bisectLoop ops tolerance data k lower middle
        (r.1, (lower, middle) :: r.2)

/-- The function `FitHermiteSpline` on the view `[first, last)` of `data`, with a budget on the
depth of the recursion.  The result is the list of breakpoints together with the log of the
ranges on which `LInfinityError` was evaluated; `none` when the budget is exhausted.
`size` is `last - first`; for `last < first` the truncated difference is `0`, which takes the
same branch `size < 3` as the negative `ptrdiff_t` of the source. -/
def FitHermiteSplineLogged (ops : SplineOps S A V D H E) (tolerance : E) (data : List S) :
    Nat → Nat → Nat → Option (List Nat × List (Nat × Nat))
  | 0, _, _ => none
  | fuel + 1, first, last =>
      if last - first < 3 then some ([], [])
      else if fitsTolerance ops tolerance data first last then some ([], [(first, last)])
      else
        let r := bisectLoop ops tolerance data (last - first) first last
        match FitHermiteSplineLogged ops tolerance data fuel r.1 last with
        | none => none
        | some (tail, log) => some (r.1 :: tail, (first, last) :: (r.2 ++ log))

/-- The breakpoints returned by `FitHermiteSpline(Range(first, last), ..., tolerance)`. -/
def FitHermiteSpline (ops : SplineOps S A V D H E) (tolerance : E) (data : List S)
    (fuel first last : Nat) : Option (List Nat) :=
  (FitHermiteSplineLogged ops tolerance data fuel first last).map Prod.fst

/-- The ranges on which `FitHermiteSpline` evaluated an interpolation error. -/
def FitHermiteSplineEvaluations (ops : SplineOps S A V D H E) (tolerance : E) (data : List S)
    (fuel first last : Nat) : Option (List (Nat × Nat)) :=
  (FitHermiteSplineLogged ops tolerance data fuel first last).map Prod.snd

end fit

/-! ### A concrete interpolant over the rationals -/

/-- Modelled from the spec: `numerics/hermite3.hpp` is not part of the sources.  The
"two-point Hermite cubic (value+derivative at both ends)" between the arguments `t0` and `t1`,
as the coefficients of `a0 + a1 x + a2 x^2 + a3 x^3` in `x = t - t0`. -/
structure Hermite3Q where
  t0 : ℚ
  t1 : ℚ
  a0 : ℚ
  a1 : ℚ
  a2 : ℚ
  a3 : ℚ

/-- Modelled from the spec: the constructor of the two-point Hermite cubic (absent
`numerics/hermite3.hpp`), matching value and derivative at both arguments. -/
def Hermite3Q.make (arguments values derivatives : ℚ × ℚ) : Hermite3Q :=
  let dt := arguments.2 - arguments.1
  let dv := values.2 - values.1
  { t0 := arguments.1
    t1 := arguments.2
    a0 := values.1
    a1 := derivatives.1
    a2 := 3 * dv / dt ^ 2 - (2 * derivatives.1 + derivatives.2) / dt
    a3 := -2 * dv / dt ^ 3 + (derivatives.1 + derivatives.2) / dt ^ 2 }

/-- Modelled from the spec: evaluation of the cubic of the absent `numerics/hermite3.hpp`. -/
def Hermite3Q.Evaluate (h : Hermite3Q) (t : ℚ) : ℚ :=
  let x := t - h.t0
  h.a0 + x * (h.a1 + x * (h.a2 + x * h.a3))

/-- Modelled from the spec: the "sup-norm error" of the absent `numerics/hermite3.hpp`, the
largest distance between the cubic and the value of a sample, over the given samples.  The
spec does not say what the error of a cubic between two coinciding arguments is (the
interpolant of a range of one sample); it is the parameter `degenerate`. -/
def Hermite3Q.LInfinityError {S : Type} (degenerate : ℚ) (h : Hermite3Q) (samples : List S)
    (get_argument get_value : S → ℚ) : ℚ :=
  if h.t0 = h.t1 then degenerate
  else samples.foldl (fun r s => max r |h.Evaluate (get_argument s) - get_value s|) 0

/-- Samples `(argument, value, derivative)` over the rationals with the interpolant above.
With `degenerate = 0` a range of one sample fits every positive tolerance; with a large
`degenerate` it fits none of the tolerances used below. -/
def rationalOps (degenerate : ℚ) : SplineOps (ℚ × ℚ × ℚ) ℚ ℚ ℚ Hermite3Q ℚ where
  get_argument := fun s => s.1
  get_value := fun s => s.2.1
  get_derivative := fun s => s.2.2
  Hermite3 := Hermite3Q.make
  LInfinityError := fun h samples ga gv => h.LInfinityError degenerate samples ga gv

/-! ### Sample sequences used below

Each sample is `(argument, value, derivative)`; the arguments are `0, 1, 2, ...`. -/

/-- Three samples with the middle one off the line through the outer two. -/
def peakSamples : List (ℚ × ℚ × ℚ) :=
  [(0, 0, 0), (1, 1, 0), (2, 0, 0)]

/-- Three samples on the line of slope one. -/
def lineSamples : List (ℚ × ℚ × ℚ) :=
  [(0, 0, 1), (1, 1, 1), (2, 2, 1)]

/-- Two samples. -/
def pairSamples : List (ℚ × ℚ × ℚ) :=
  [(0, 0, 1), (1, 1, 1)]

/-- Twelve samples: nine on the zero function, of which the seventh carries a derivative of
`100`, then three at height `10`. -/
def spikeSamples : List (ℚ × ℚ × ℚ) :=
  [(0, 0, 0), (1, 0, 0), (2, 0, 0), (3, 0, 0), (4, 0, 0), (5, 0, 0), (6, 0, 100), (7, 0, 0),
    (8, 0, 0), (9, 10, 0), (10, 10, 0), (11, 10, 0)]

/-- Sixteen samples: seven on the zero function, then nine on the parabola `(t - 6)^2`, of
which the eleventh, twelfth and thirteenth carry the derivatives `108`, `1000` and `112`. -/
def kinkSamples : List (ℚ × ℚ × ℚ) :=
  [(0, 0, 0), (1, 0, 0), (2, 0, 0), (3, 0, 0), (4, 0, 0), (5, 0, 0), (6, 0, 0), (7, 1, 2),
    (8, 4, 4), (9, 9, 6), (10, 16, 108), (11, 25, 1000), (12, 36, 112), (13, 49, 14),
    (14, 64, 16), (15, 81, 18)]

/-- Eight samples on the zero function, except for a value `1` at the fifth. -/
def stepSamples : List (ℚ × ℚ × ℚ) :=
  [(0, 0, 0), (1, 0, 0), (2, 0, 0), (3, 0, 0), (4, 1, 0), (5, 0, 0), (6, 0, 0), (7, 0, 0)]

/-- Four samples: three on the zero function, then a value `1`. -/
def rampSamples : List (ℚ × ℚ × ℚ) :=
  [(0, 0, 0), (1, 0, 0), (2, 0, 0), (3, 1, 0)]

end numerics

namespace physics

/-- A vector, displacement or velocity of a frame, by its three coordinates. -/
abbrev Vector3 (K : Type) : Type := K × K × K

/-- The product of a scalar and a vector. -/
def scale {K : Type} [Mul K] (c : K) (v : Vector3 K) : Vector3 K :=
  (c * v.1, c * v.2.1, c * v.2.2)

/-- The unit `Radian` of `quantities`, the angle of measure one. -/
def Radian {K : Type} [One K] : K := 1

/-- The ways `TestParticleStateVectors` can abort: its own `LOG(FATAL) << "not yet implemented"`
and the precondition of `Bisect`. -/
inductive Fatal where
  | not_yet_implemented
  | bisect_precondition
  deriving DecidableEq, Repr

/-- The collaborators of `KeplerOrbit`: the elementary functions of
`quantities/elementary_functions.hpp` (`Sin`, `Cos`, the two-argument `ArcTan`, `Sqrt`), the
action on a vector of `Rotation<Frame, Frame>(angle, axis)` of `geometry/rotation.hpp`, and
`numerics::Bisect`, of which only the declaration is in the sources: `none` stands for a
violated precondition. -/
structure OrbitOps (K : Type) where
  Sin : K → K
  Cos : K → K
  ArcTan : K → K → K
  Sqrt : K → K
  Rotation : K → Vector3 K → Vector3 K → Vector3 K
  Bisect : (K → K) → K → K → Option K

/-- The structure `KeplerianElements<Frame>`. -/
structure KeplerianElements (K : Type) where
  eccentricity : K
  semimajor_axis : K
  inclination : K
  longitude_of_ascending_node : K
  argument_of_periapsis : K
  mean_anomaly : K

/-- A `MassiveBody`, of which the orbit reads the gravitational parameter. -/
structure MassiveBody (K : Type) where
  gravitational_parameter : K

/-- A `Body` is massless or is a `MassiveBody`. -/
inductive Body (K : Type) where
  | massless : Body K
  | massive : MassiveBody K → Body K

/-- The member `Body::is_massless`. -/
def Body.is_massless {K : Type} : Body K → Bool
  | Body.massless => true
  | Body.massive _ => false

/-- The data members of `KeplerOrbit<Frame>`; an `Instant` is its coordinate in `K`. -/
structure KeplerOrbit (K : Type) where
  primary_gravitational_parameter_ : K
  secondary_gravitational_parameter_ : K
  elements_at_epoch_ : KeplerianElements K
  epoch_ : K

section kepler

variable {K : Type} [LinearOrderedField K]

/-- The constructor of `KeplerOrbit`: a massless secondary has the default (zero)
gravitational parameter. -/
def KeplerOrbit.make (primary : MassiveBody K) (secondary : Body K) (epoch : K)
    (elements_at_epoch : KeplerianElements K) : KeplerOrbit K :=
  { primary_gravitational_parameter_ := primary.gravitational_parameter
    secondary_gravitational_parameter_ :=
      if secondary.is_massless then 0
      else
        match secondary with
        | Body.massive m => m.gravitational_parameter
        | Body.massless => 0
    elements_at_epoch_ := elements_at_epoch
    epoch_ := epoch }

/-- The lambda `kepler_equation` of `TestParticleStateVectors`. -/
def kepler_equation (ops : OrbitOps K) (eccentricity mean_anomaly : K)
    (eccentric_anomaly : K) : K :=
  mean_anomaly - (eccentric_anomaly - eccentricity * ops.Sin eccentric_anomaly * Radian)

/-- The elliptic case of `TestParticleStateVectors` once `eccentric_anomaly` is known: from
`true_anomaly` to `return {r, v}`. -/
def EllipticStateVectors (ops : OrbitOps K) (elements : KeplerianElements K)
    (gravitational_parameter : K) (eccentric_anomaly : K) : Vector3 K × Vector3 K :=
  let μ := gravitational_parameter
  let eccentricity := elements.eccentricity
  let a := elements.semimajor_axis
  let i := elements.inclination
  let Ω := elements.longitude_of_ascending_node
  let ω := elements.argument_of_periapsis
  let true_anomaly :=
    2 * ops.ArcTan (ops.Sqrt (1 + eccentricity) * ops.Sin (eccentric_anomaly / 2))
      (ops.Sqrt (1 - eccentricity) * ops.Cos (eccentric_anomaly / 2))
  let x : Vector3 K := (1, 0, 0)
  let z : Vector3 K := (0, 0, 1)
  let from_orbit_plane : Vector3 K → Vector3 K :=
    fun w => ops.Rotation Ω z (ops.Rotation i x (ops.Rotation ω z w))
  let distance := a * (1 - eccentricity * ops.Cos eccentric_anomaly)
  let r := scale distance (from_orbit_plane (ops.Cos true_anomaly, ops.Sin true_anomaly, 0))
  let v := scale (ops.Sqrt (μ * a) / distance)
    (from_orbit_plane (-ops.Sin eccentric_anomaly,
      ops.Sqrt (1 - eccentricity ^ 2) * ops.Cos eccentric_anomaly, 0))
  (r, v)

/-- The static member `KeplerOrbit::TestParticleStateVectors`. -/
def TestParticleStateVectors (ops : OrbitOps K) (elements : KeplerianElements K)
    (gravitational_parameter : K) : Except Fatal (Vector3 K × Vector3 K) :=
  let eccentricity := elements.eccentricity
  let mean_anomaly := elements.mean_anomaly
  if eccentricity < 1 then
    let eccentric_anomaly : Option K :=
      if eccentricity = 0 then some mean_anomaly
      else ops.Bisect (kepler_equation ops eccentricity mean_anomaly)
        (mean_anomaly - eccentricity * Radian) (mean_anomaly + eccentricity * Radian)
    match eccentric_anomaly with
    | some E => Except.ok (EllipticStateVectors ops elements gravitational_parameter E)
    | none => Except.error Fatal.bisect_precondition
  else if eccentricity = 1 then Except.error Fatal.not_yet_implemented
  else Except.error Fatal.not_yet_implemented

/-- The arguments `(primocentric_elements, μ)` that `PrimocentricStateVectors(t)` passes to
`TestParticleStateVectors`. -/
def KeplerOrbit.PrimocentricTestParticle (ops : OrbitOps K) (orbit : KeplerOrbit K) (t : K) :
    KeplerianElements K × K :=
  let a := orbit.elements_at_epoch_.semimajor_axis
  let μ := orbit.primary_gravitational_parameter_ + orbit.secondary_gravitational_parameter_
  let mean_motion := ops.Sqrt (μ / a ^ 3) * Radian
  ({ orbit.elements_at_epoch_ with
      mean_anomaly := orbit.elements_at_epoch_.mean_anomaly + mean_motion * (t - orbit.epoch_) },
    μ)

/-- The member `KeplerOrbit::PrimocentricStateVectors`. -/
def KeplerOrbit.PrimocentricStateVectors (ops : OrbitOps K) (orbit : KeplerOrbit K) (t : K) :
    Except Fatal (Vector3 K × Vector3 K) :=
  TestParticleStateVectors ops (orbit.PrimocentricTestParticle ops t).1
    (orbit.PrimocentricTestParticle ops t).2

/-- The arguments `(barycentric_elements, μ)` that `BarycentricStateVectors(t)` passes to
`TestParticleStateVectors`. -/
def KeplerOrbit.BarycentricTestParticle (ops : OrbitOps K) (orbit : KeplerOrbit K) (t : K) :
    KeplerianElements K × K :=
  let a_primocentric := orbit.elements_at_epoch_.semimajor_axis
  let μ1 := orbit.primary_gravitational_parameter_
  let μ2 := orbit.secondary_gravitational_parameter_
  let a := a_primocentric * μ1 / (μ1 + μ2)
  let μ := μ1 ^ 3 / (μ1 + μ2) ^ 2
  let mean_motion := ops.Sqrt (μ / a ^ 3) * Radian
  ({ orbit.elements_at_epoch_ with
      semimajor_axis := a
      mean_anomaly := orbit.elements_at_epoch_.mean_anomaly + mean_motion * (t - orbit.epoch_) },
    μ)

/-- The member `KeplerOrbit::BarycentricStateVectors`. -/
def KeplerOrbit.BarycentricStateVectors (ops : OrbitOps K) (orbit : KeplerOrbit K) (t : K) :
    Except Fatal (Vector3 K × Vector3 K) :=
  TestParticleStateVectors ops (orbit.BarycentricTestParticle ops t).1
    (orbit.BarycentricTestParticle ops t).2

end kepler

/-- Rational stand-ins for the elementary functions (truncated series, the identity for the
root, a rotation that leaves vectors in place, a root finder whose precondition always
fails), used to run the definitions on concrete orbits. -/
def rationalOrbitOps : OrbitOps ℚ where
  Sin := fun x => x - x ^ 3 / 6
  Cos := fun x => 1 - x ^ 2 / 2
  ArcTan := fun y x => y / (1 + x)
  Sqrt := fun x => x
  Rotation := fun _ _ w => w
  Bisect := fun _ _ _ => none

/-- A circular orbit of semimajor axis `3` around a primary of gravitational parameter `2`,
with a secondary of gravitational parameter `1`. -/
def circularOrbit : KeplerOrbit ℚ :=
  KeplerOrbit.make { gravitational_parameter := 2 }
    (Body.massive { gravitational_parameter := 1 }) 0
    { eccentricity := 0
      semimajor_axis := 3
      inclination := 0
      longitude_of_ascending_node := 0
      argument_of_periapsis := 0
      mean_anomaly := 1 }

/-! ### The ephemeris (`physics/ephemeris_body.hpp`)

A body is known to the ephemeris by the address held by its
`not_null<std::unique_ptr<MassiveBody>>`, a `Nat`.  The map `trajectories_` is the list of its
entries `(body, trajectory)` in the order of iteration.  `ContinuousTrajectory`
(`physics/continuous_trajectory.hpp`) is not part of the sources: its type `T` and the members
the ephemeris calls are parameters (`TrajectoryOps`).  The loops over `trajectories_` bind
`trajectory` to `pair.first`; the trajectory of the entry is what is read here, the only
reading under which `trajectory.t_min()` has a meaning. -/

/-- The fatal checks of the functions of `Ephemeris`. -/
inductive CheckFailure where
  | bodies_empty
  | sizes_differ
  | key_not_found
  deriving DecidableEq, Repr

/-- The members of `ContinuousTrajectory<Frame>` used by `Ephemeris`: the constructor
`ContinuousTrajectory(step, low_fitting_tolerance, high_fitting_tolerance)`, `t_min()`,
`t_max()` and `ForgetBefore(t)`, which gives the trajectory after the call, or `none` when a
fatal check of the call fails. -/
structure TrajectoryOps (K T : Type) where
  make : K → K → K → T
  t_min : T → K
  t_max : T → K
  ForgetBefore : K → T → Option T

/-- The data members of `Ephemeris<Frame>` that the functions below read or write; `D` is
`DegreesOfFreedom<Frame>`.  The integrator `planetary_integrator_` is an argument of
`Prolong`. -/
structure Ephemeris (K T D : Type) where
  bodies_ : List Nat
  trajectories_ : List (Nat × T)
  step_ : K
  low_fitting_tolerance_ : K
  high_fitting_tolerance_ : K
  last_state_ : List D

/-- The member `emplace` of `std::map`: the entry is inserted at its place in the order of the
keys, unless the key is already there. -/
def emplace {T : Type} (key : Nat) (value : T) : List (Nat × T) → List (Nat × T)
  | [] => [(key, value)]
  | (k, v) :: rest =>
      if key = k then (k, v) :: rest
      else if key < k then (key, value) :: (k, v) :: rest
      else (k, v) :: emplace key value rest

/-- Modelled from the spec: `FindOrDie` of `base/map_util.hpp`, which is not part of the
sources.  It gives the value stored under the key and "fails (precondition violation)" when
the key is not in the map. -/
def FindOrDie {T : Type} : List (Nat × T) → Nat → Except CheckFailure T
  | [], _ => Except.error CheckFailure.key_not_found
  | (k, v) :: rest, key => if key = k then Except.ok v else FindOrDie rest key

section ephemeris

variable {K T D : Type} [LinearOrder K]

/-- The loop of the constructor: one `emplace` of a new `ContinuousTrajectory` per body of
`bodies_`. -/
def constructTrajectories (ops : TrajectoryOps K T) (step low_fitting_tolerance
    high_fitting_tolerance : K) (bodies_ : List Nat) : List (Nat × T) :=
  bodies_.foldl
    (fun trajectories body =>
      emplace body (ops.make step low_fitting_tolerance high_fitting_tolerance) trajectories)
    []

/-- The constructor of `Ephemeris`.  The member initializer `bodies_(std::move(bodies))` runs
before the body of the constructor and leaves the parameter `bodies` empty; the two checks
read the parameter. -/
def Ephemeris.make (ops : TrajectoryOps K T) (bodies : List Nat) (initial_state : List D)
    (_initial_time : K) (step low_fitting_tolerance high_fitting_tolerance : K) :
    Except CheckFailure (Ephemeris K T D) :=
  let bodies_ := bodies
  let bodies : List Nat := []
  if bodies.isEmpty then Except.error CheckFailure.bodies_empty
  else if bodies.length ≠ initial_state.length then Except.error CheckFailure.sizes_differ
  else
    Except.ok
      { bodies_ := bodies_
        trajectories_ :=
          constructTrajectories ops step low_fitting_tolerance high_fitting_tolerance bodies_
        step_ := step
        low_fitting_tolerance_ := low_fitting_tolerance
        high_fitting_tolerance_ := high_fitting_tolerance
        last_state_ := initial_state }

/-- The member `Ephemeris::trajectory`. -/
def Ephemeris.trajectory (e : Ephemeris K T D) (body : Nat) : Except CheckFailure T :=
  FindOrDie e.trajectories_ body

/-- The member `Ephemeris::t_min`.  The local `Time t_min;` starts from the value
`default_time` of a default-constructed `Time`. -/
def Ephemeris.t_min (ops : TrajectoryOps K T) (default_time : K) (e : Ephemeris K T D) : K :=
  e.trajectories_.foldl (fun t_min pair => max t_min (ops.t_min pair.2)) default_time

/-- The member `Ephemeris::t_max`.  The local `t_max` starts from the trajectory of
`trajectories_.begin()`, which has no value in an empty map. -/
def Ephemeris.t_max (ops : TrajectoryOps K T) (e : Ephemeris K T D) : Option K :=
  match e.trajectories_ with
  | [] => none
  | first :: _ =>
      some (e.trajectories_.foldl (fun t_max pair => min t_max (ops.t_max pair.2))
        (ops.t_max first.2))

/-- The loop of `Ephemeris::ForgetBefore` over the entries of `trajectories_`. -/
def forgetEntries (ops : TrajectoryOps K T) (t : K) : List (Nat × T) → Option (List (Nat × T))
  | [] => some []
  | (body, trajectory) :: rest =>
      match ops.ForgetBefore t trajectory with
      | none => none
      | some forgotten =>
          match forgetEntries ops t rest with
          | none => none
          | some others => some ((body, forgotten) :: others)

/-- The member `Ephemeris::ForgetBefore`; `none` when a call of
`ContinuousTrajectory::ForgetBefore` fails a fatal check. -/
def Ephemeris.ForgetBefore (ops : TrajectoryOps K T) (e : Ephemeris K T D) (t : K) :
    Option (Ephemeris K T D) :=
  match forgetEntries ops t e.trajectories_ with
  | none => none
  | some trajectories => some { e with trajectories_ := trajectories }

/-- The member `Ephemeris::AppendState`, whose body is empty. -/
def Ephemeris.AppendState (e : Ephemeris K T D) (_state : List D) : Ephemeris K T D :=
  e

/-- The member `Ephemeris::Prolong`.  `Solve problem.initial_state problem.t_final step_` is
the sequence of states for which `planetary_integrator_.Solve(problem, step_)` calls
`problem.append_state`.  The source sets `problem.append_state = std::bind()`, bound to no
member; with `AppendState` as the callback the states are dropped just the same. -/
def Ephemeris.Prolong (Solve : List D → K → K → List (List D)) (e : Ephemeris K T D) (t : K) :
    Ephemeris K T D :=
  (Solve e.last_state_ t e.step_).foldl Ephemeris.AppendState e

end ephemeris

/-- Modelled from the spec: a `ContinuousTrajectory` reduced to the range `(t_min, t_max)` it
covers.  `ForgetBefore(t)` "requires `t <= t_max`" and "after this call, `t_min` becomes
`max(t_min, t)`".  The spec gives no range to a trajectory without samples: the range `fresh`
of a newly constructed one is a parameter. -/
def intervalTrajectoryOps (fresh : ℚ × ℚ) : TrajectoryOps ℚ (ℚ × ℚ) where
  make := fun _ _ _ => fresh
  t_min := fun trajectory => trajectory.1
  t_max := fun trajectory => trajectory.2
  ForgetBefore := fun t trajectory =>
    if t ≤ trajectory.2 then some (max trajectory.1 t, trajectory.2) else none

/-- An ephemeris of one body, at address `1`, whose trajectory covers `[-2, -1)`. -/
def pastEphemeris : Ephemeris ℚ (ℚ × ℚ) Unit :=
  { bodies_ := [1]
    trajectories_ := [(1, (-2, -1))]
    step_ := 1
    low_fitting_tolerance_ := 1
    high_fitting_tolerance_ := 2
    last_state_ := [()] }

/-- An ephemeris of two bodies, at addresses `1` and `2`, whose trajectories cover `[0, 10)`
and `[1, 8)`. -/
def twoBodyEphemeris : Ephemeris ℚ (ℚ × ℚ) Unit :=
  { bodies_ := [1, 2]
    trajectories_ := [(1, (0, 10)), (2, (1, 8))]
    step_ := 1
    low_fitting_tolerance_ := 1
    high_fitting_tolerance_ := 2
    last_state_ := [(), ()] }

/-- The state the constructor builds for the bodies at addresses `2` and `1`, were its checks
passed: one new trajectory per body. -/
def newTwoBodyEphemeris : Ephemeris ℚ (ℚ × ℚ) Unit :=
  { bodies_ := [2, 1]
    trajectories_ := constructTrajectories (intervalTrajectoryOps (0, 0)) 1 1 2 [2, 1]
    step_ := 1
    low_fitting_tolerance_ := 1
    high_fitting_tolerance_ := 2
    last_state_ := [(), ()] }

/-- An integrator that passes two states to `append_state`. -/
def twoStepSolve : List Unit → ℚ → ℚ → List (List Unit) :=
  fun initial_state _ _ => [initial_state, initial_state]

end physics

namespace ksp_plugin

/-! ### The iteration over a rendered trajectory (`ksp_plugin/interface.cpp`)

A pointer is an `Option`, `none` being the null pointer.  A `RenderedTrajectory<World>` is the
list of its `LineSegment<World>`, and the iterator `it` is a position in it, the end being the
length of the list.  A `Position<World>` is given by its coordinates, of type `K`. -/

/-- The fatal checks of the interface functions. -/
inductive InterfaceFailure where
  | null_pointer
  | iterator_at_end
  deriving DecidableEq, Repr

/-- The struct `XYZ`. -/
structure XYZ (K : Type) where
  x : K
  y : K
  z : K

/-- The struct `XYZSegment`, with its members `begin` and `end`. -/
structure XYZSegment (K : Type) where
  begin_ : XYZ K
  end_ : XYZ K

/-- A `LineSegment<World>`, with its members `begin` and `end`. -/
structure LineSegment (K : Type) where
  begin_ : physics.Vector3 K
  end_ : physics.Vector3 K

/-- The struct `LineAndIterator`. -/
structure LineAndIterator (K : Type) where
  rendered_trajectory : List (LineSegment K)
  it : Nat

/-- The conversion of a `size_t` to the `int` that `NumberOfSegments` returns: 32 bits, two's
complement. -/
def toInt32 (n : Nat) : Int :=
  ((n : Int) + 2 ^ 31) % 2 ^ 32 - 2 ^ 31

section interface

variable {K P F G : Type} [Field K]

/-- The unit `Metre`, the length of measure one. -/
def Metre : K := 1

/-- The coordinates, in metres, of `position - kWorldOrigin`. -/
def toXYZ (kWorldOrigin : physics.Vector3 K) (position : physics.Vector3 K) : XYZ K :=
  { x := (position.1 - kWorldOrigin.1) / Metre
    y := (position.2.1 - kWorldOrigin.2.1) / Metre
    z := (position.2.2 - kWorldOrigin.2.2) / Metre }

/-- The `XYZSegment` that `FetchAndIncrement` builds from a `LineSegment<World>`. -/
def toXYZSegment (kWorldOrigin : physics.Vector3 K) (segment : LineSegment K) :
    XYZSegment K :=
  { begin_ := toXYZ kWorldOrigin segment.begin_
    end_ := toXYZ kWorldOrigin segment.end_ }

/-- The interface function `RenderedVesselTrajectory`; `render` is the member
`Plugin::RenderedVesselTrajectory`, which is not part of the sources, and `G` the type of a
vessel GUID. -/
def RenderedVesselTrajectory (kWorldOrigin : physics.Vector3 K)
    (render : P → G → F → physics.Vector3 K → List (LineSegment K))
    (plugin : Option P) (vessel_guid : G) (frame : Option F)
    (sun_world_position : XYZ K) : Except InterfaceFailure (LineAndIterator K) :=
  match plugin, frame with
  | some p, some f =>
      let rendered_trajectory := render p vessel_guid f
        (kWorldOrigin.1 + sun_world_position.x * Metre,
          kWorldOrigin.2.1 + sun_world_position.y * Metre,
          kWorldOrigin.2.2 + sun_world_position.z * Metre)
      Except.ok { rendered_trajectory := rendered_trajectory, it := 0 }
  | _, _ => Except.error InterfaceFailure.null_pointer

/-- The interface function `NumberOfSegments`. -/
def NumberOfSegments (line_and_iterator : Option (LineAndIterator K)) :
    Except InterfaceFailure Int :=
  match line_and_iterator with
  | none => Except.error InterfaceFailure.null_pointer
  | some l => Except.ok (toInt32 l.rendered_trajectory.length)

/-- The interface function `FetchAndIncrement`: the segment returned and the
`LineAndIterator` after the call.  An iterator past the end designates no segment. -/
def FetchAndIncrement (kWorldOrigin : physics.Vector3 K)
    (line_and_iterator : Option (LineAndIterator K)) :
    Except InterfaceFailure (XYZSegment K × LineAndIterator K) :=
  match line_and_iterator with
  | none => Except.error InterfaceFailure.null_pointer
  | some l =>
      if l.it = l.rendered_trajectory.length then
        Except.error InterfaceFailure.iterator_at_end
      else
        match l.rendered_trajectory[l.it]? with
        | some result => Except.ok (toXYZSegment kWorldOrigin result, { l with it := l.it + 1 })
        | none => Except.error InterfaceFailure.iterator_at_end

/-- The interface function `AtEnd`. -/
def AtEnd (line_and_iterator : Option (LineAndIterator K)) : Except InterfaceFailure Bool :=
  match line_and_iterator with
  | none => Except.error InterfaceFailure.null_pointer
  | some l => Except.ok (decide (l.it = l.rendered_trajectory.length))

/-- The segments returned by `count` successive calls of `FetchAndIncrement`, in order, and
the `LineAndIterator` after them; the failure of the first call that fails. -/
def fetchMany (kWorldOrigin : physics.Vector3 K) :
    Nat → LineAndIterator K → Except InterfaceFailure (List (XYZSegment K) × LineAndIterator K)
  | 0, l => Except.ok ([], l)
  | count + 1, l =>
      match FetchAndIncrement kWorldOrigin (some l) with
      | Except.error failure => Except.error failure
      | Except.ok (segment, l') =>
          match fetchMany kWorldOrigin count l' with
          | Except.error failure => Except.error failure
          | Except.ok (segments, l'') => Except.ok (segment :: segments, l'')

end interface

/-- A plugin whose rendered trajectory is the list of segments it is made of. -/
def listRender : List (LineSegment ℚ) → Nat → Unit → physics.Vector3 ℚ →
    List (LineSegment ℚ) :=
  fun segments _ _ _ => segments

/-- Two segments, from `(0, 0, 0)` to `(1, 0, 0)` and on to `(1, 2, 0)`. -/
def twoSegments : List (LineSegment ℚ) :=
  [{ begin_ := (0, 0, 0), end_ := (1, 0, 0) }, { begin_ := (1, 0, 0), end_ := (1, 2, 0) }]

/-- A trajectory of `n` segments, all from `(0, 0, 0)` to `(1, 0, 0)`. -/
def uniformTrajectory (n : Nat) : List (LineSegment ℚ) :=
  List.replicate n { begin_ := (0, 0, 0), end_ := (1, 0, 0) }

/-! ### The pile-up (`ksp_plugin/pile_up.cpp`)

`DiscreteTrajectory` (the type `Tr` of `psychohistory_`), the ephemeris `E` with its two flows,
the vessels (their joint state `V`) and the rigid motions are not part of the sources: the
members `AdvanceTime` calls are parameters (`PileUpOps`).  A vessel is known by its address,
a `Nat`.  Every call made on the ephemeris is logged. -/

/-- A call made on the ephemeris: `FlowWithFixedStep({&psychohistory_},
NoIntrinsicAccelerations, t, fixed_step_parameters)` or `FlowWithAdaptiveStep(&psychohistory_,
intrinsic_acceleration, t, adaptive_step_parameters, unlimited_max_ephemeris_steps)`. -/
inductive EphemerisCall (K : Type) where
  | FlowWithFixedStep (t : K)
  | FlowWithAdaptiveStep (intrinsic_acceleration : K → physics.Vector3 K) (t : K)

/-- Whether the call is a `FlowWithFixedStep`. -/
def EphemerisCall.isFixedStep {K : Type} : EphemerisCall K → Bool
  | EphemerisCall.FlowWithFixedStep _ => true
  | EphemerisCall.FlowWithAdaptiveStep _ _ => false

/-- The data members of `PileUp`. -/
structure PileUp (K D Tr : Type) where
  vessels_ : List Nat
  psychohistory_ : Tr
  psychohistory_is_history_ : Bool
  mass_ : K
  intrinsic_force_ : physics.Vector3 K
  vessel_degrees_of_freedom_ : List (Nat × D)

/-- The collaborators of `PileUp::AdvanceTime`.
* `empty` is a default-constructed `DiscreteTrajectory`; `last_time` and
  `last_degrees_of_freedom` are `last().time()` and `last().degrees_of_freedom()`;
  `penultimate_time` is `(--last()).time()`; `Append` gives `none` when a fatal check of the
  call fails; `pointsAfter trajectory time` lists `(it.time(), it.degrees_of_freedom())` for
  the iterators after the point of that time, up to `End()`.
* The two flows give the ephemeris and the trajectory after the call.
* `to_barycentric pile_up_dof` is the inverse of the rigid motion built from `pile_up_dof`.
* `AppendToPsychohistory vessels vessel time dof historical` is the call on one vessel. -/
structure PileUpOps (K D Tr E V FP AP : Type) where
  empty : Tr
  last_time : Tr → K
  last_degrees_of_freedom : Tr → D
  penultimate_time : Tr → K
  ForgetAfter : Tr → K → Tr
  Append : Tr → K → D → Option Tr
  pointsAfter : Tr → K → List (K × D)
  FlowWithFixedStep : E → Tr → K → FP → E × Tr
  FlowWithAdaptiveStep : E → Tr → (K → physics.Vector3 K) → K → AP → E × Tr
  NoIntrinsicAcceleration : K → physics.Vector3 K
  to_barycentric : D → D → D
  AppendToPsychohistory : V → Nat → K → D → Bool → V

section pile_up

variable {K D Tr E V FP AP : Type} [LinearOrderedField K]

/-- The member `PileUp::set_mass_and_intrinsic_force`. -/
def PileUp.set_mass_and_intrinsic_force (p : PileUp K D Tr) (mass : K)
    (intrinsic_force : physics.Vector3 K) : PileUp K D Tr :=
  { p with mass_ := mass, intrinsic_force_ := intrinsic_force }

/-- The trajectory `psychohistory_` after the first `if` of `AdvanceTime`: without its last
point when that point is not authoritative. -/
def PileUp.authoritative (ops : PileUpOps K D Tr E V FP AP) (p : PileUp K D Tr) : Tr :=
  if !p.psychohistory_is_history_ then
    ops.ForgetAfter p.psychohistory_ (ops.penultimate_time p.psychohistory_)
  else p.psychohistory_

/-- The quotient `intrinsic_force_ / mass_`. -/
def PileUp.acceleration (p : PileUp K D Tr) : physics.Vector3 K :=
  (p.intrinsic_force_.1 / p.mass_, p.intrinsic_force_.2.1 / p.mass_,
    p.intrinsic_force_.2.2 / p.mass_)

/-- The `if (intrinsic_force_ == Vector<Force, Barycentric>{})` statement of `AdvanceTime`: the
ephemeris, the trajectory `psychohistory_` and the flag `psychohistory_is_history_` after it,
with the calls made on the ephemeris; `none` when an `Append` fails. -/
def PileUp.flow (ops : PileUpOps K D Tr E V FP AP) (p : PileUp K D Tr) (ephemeris : E) (t : K)
    (fixed_step_parameters : FP) (adaptive_step_parameters : AP) :
    Option (E × Tr × Bool × List (EphemerisCall K)) :=
  if p.intrinsic_force_ = (0, 0, 0) then
    let fixed := ops.FlowWithFixedStep ephemeris (p.authoritative ops) t fixed_step_parameters
    if ops.last_time fixed.2 < t then
      match ops.Append ops.empty (ops.last_time fixed.2)
          (ops.last_degrees_of_freedom fixed.2) with
      | none => none
      | some prolongation =>
          let adaptive := ops.FlowWithAdaptiveStep fixed.1 fixed.2 ops.NoIntrinsicAcceleration t
            adaptive_step_parameters
          match ops.Append adaptive.2 (ops.last_time prolongation)
              (ops.last_degrees_of_freedom prolongation) with
          | none => none
          | some psychohistory =>
              some (adaptive.1, psychohistory, false,
                [EphemerisCall.FlowWithFixedStep t,
                  EphemerisCall.FlowWithAdaptiveStep ops.NoIntrinsicAcceleration t])
    else
      some (fixed.1, fixed.2, true, [EphemerisCall.FlowWithFixedStep t])
  else
    let a := p.acceleration
    let intrinsic_acceleration : K → physics.Vector3 K := fun _ => a
    let adaptive := ops.FlowWithAdaptiveStep ephemeris (p.authoritative ops)
      intrinsic_acceleration t adaptive_step_parameters
    some (adaptive.1, adaptive.2, true,
      [EphemerisCall.FlowWithAdaptiveStep intrinsic_acceleration t])

/-- The inner loop of `AdvanceTime` over `vessels_`, for one point of the trajectory; `none`
when `FindOrDie` fails. -/
def PileUp.appendToVessels (ops : PileUpOps K D Tr E V FP AP) (p : PileUp K D Tr) (time : K)
    (pile_up_dof : D) (historical : Bool) : List Nat → V → Option V
  | [], vessels => some vessels
  | vessel :: rest, vessels =>
      match physics.FindOrDie p.vessel_degrees_of_freedom_ vessel with
      | Except.error _ => none
      | Except.ok dof =>
          PileUp.appendToVessels ops p time pile_up_dof historical rest
            (ops.AppendToPsychohistory vessels vessel time
              (ops.to_barycentric pile_up_dof dof) historical)

/-- The outer loop of `AdvanceTime` over the points after
`last_preexisting_authoritative_point_`; a point is the last one when no point follows it. -/
def PileUp.appendPoints (ops : PileUpOps K D Tr E V FP AP) (p : PileUp K D Tr)
    (psychohistory_is_history : Bool) : List (K × D) → V → Option V
  | [], vessels => some vessels
  | point :: rest, vessels =>
      let historical := psychohistory_is_history || !rest.isEmpty
      match PileUp.appendToVessels ops p point.1 point.2 historical p.vessels_ vessels with
      | none => none
      | some vessels' => PileUp.appendPoints ops p psychohistory_is_history rest vessels'

/-- The member `PileUp::AdvanceTime`: the pile-up, the ephemeris and the vessels after the
call, and the calls made on the ephemeris, in order; `none` when a fatal check fails. -/
def PileUp.AdvanceTime (ops : PileUpOps K D Tr E V FP AP) (p : PileUp K D Tr) (ephemeris : E)
    (vessels : V) (t : K) (fixed_step_parameters : FP) (adaptive_step_parameters : AP) :
    Option (PileUp K D Tr × E × V × List (EphemerisCall K)) :=
  let last_preexisting_authoritative_point_ := ops.last_time (p.authoritative ops)
  match p.flow ops ephemeris t fixed_step_parameters adaptive_step_parameters with
  | none => none
  | some (ephemeris', psychohistory, psychohistory_is_history, calls) =>
      match PileUp.appendPoints ops p psychohistory_is_history
          (ops.pointsAfter psychohistory last_preexisting_authoritative_point_) vessels with
      | none => none
      | some vessels' =>
          some ({ p with
                  psychohistory_ := psychohistory
                  psychohistory_is_history_ := psychohistory_is_history },
            ephemeris', vessels', calls)

end pile_up

/-- A pile-up over the rationals: a trajectory is the list of its points `(time, position)`,
the ephemeris has no state, the state of the vessels is the list of the points appended to
them.  The fixed-step flow appends the points one `step` apart that do not pass `t`, at most
`100` of them; the adaptive flow appends a point at `t`. -/
def listPileUpOps : PileUpOps ℚ ℚ (List (ℚ × ℚ)) Unit (List (Nat × ℚ × ℚ × Bool)) ℚ Unit where
  empty := []
  last_time := fun trajectory => (trajectory.getLastD (0, 0)).1
  last_degrees_of_freedom := fun trajectory => (trajectory.getLastD (0, 0)).2
  penultimate_time := fun trajectory => (trajectory.dropLast.getLastD (0, 0)).1
  ForgetAfter := fun trajectory time => trajectory.filter (fun point => point.1 ≤ time)
  Append := fun trajectory time dof => some (trajectory ++ [(time, dof)])
  pointsAfter := fun trajectory time => trajectory.filter (fun point => time < point.1)
  FlowWithFixedStep := fun ephemeris trajectory t step =>
    (ephemeris,
      trajectory ++
        ((List.range 100).map (fun i =>
            ((trajectory.getLastD (0, 0)).1 + (i + 1) * step,
              (trajectory.getLastD (0, 0)).2))).filter (fun point => point.1 ≤ t))
  FlowWithAdaptiveStep := fun ephemeris trajectory _ t _ =>
    (ephemeris, trajectory ++ [(t, (trajectory.getLastD (0, 0)).2)])
  NoIntrinsicAcceleration := fun _ => (0, 0, 0)
  to_barycentric := fun pile_up_dof dof => pile_up_dof + dof
  AppendToPsychohistory := fun vessels vessel time dof historical =>
    vessels ++ [(vessel, time, dof, historical)]

/-- A pile-up of one vessel, at address `7`, with no intrinsic force, whose history ends at
time `0`. -/
def coastingPileUp : PileUp ℚ ℚ (List (ℚ × ℚ)) :=
  { vessels_ := [7]
    psychohistory_ := [(0, 5)]
    psychohistory_is_history_ := true
    mass_ := 2
    intrinsic_force_ := (0, 0, 0)
    vessel_degrees_of_freedom_ := [(7, 1)] }

/-- The pile-up `coastingPileUp` under an intrinsic force of `2` along the first axis. -/
def thrustingPileUp : PileUp ℚ ℚ (List (ℚ × ℚ)) :=
  coastingPileUp.set_mass_and_intrinsic_force 2 (2, 0, 0)

end ksp_plugin

namespace numerics

/-- The precondition of `Bisect` given with its declaration in `numerics/root_finders.hpp`:
"`f(lower_bound)` and `f(upper_bound)` must be nonzero and of opposite signs". -/
def BisectPrecondition {K : Type} [LinearOrderedField K] (f : K → K)
    (lower_bound upper_bound : K) : Prop :=
  f lower_bound ≠ 0 ∧ f upper_bound ≠ 0 ∧
    ((f lower_bound < 0 ∧ 0 < f upper_bound) ∨ (0 < f lower_bound ∧ f upper_bound < 0))

/-! ### Facts about the search loop and the recursion -/

section fit_lemmas

variable {S A V D H E : Type} [LinearOrder E]
variable (ops : SplineOps S A V D H E) (tol : E) (data : List S)

/-- The loop keeps `lower` inside the bracket it started from. -/
theorem bisectLoop_lower_bounds (k : Nat) : ∀ lower upper, lower < upper →
    lower ≤ (bisectLoop ops tol data k lower upper).1 ∧
      (bisectLoop ops tol data k lower upper).1 < upper := by
  induction k with
  | zero =>
    intro lower upper h
    simpa [bisectLoop] using h
  | succ k ih =>
    intro lower upper h
    simp only [bisectLoop]
    split_ifs with hm hf
    · exact ⟨le_refl _, h⟩
    · have := ih (lower + (upper - lower) / 2) upper (by omega)
      constructor <;> omega
    · have := ih lower (lower + (upper - lower) / 2) (by omega)
      constructor <;> omega

/-- Any iteration bound of at least `upper - lower` gives the same run of the loop. -/
theorem bisectLoop_bound (k : Nat) : ∀ k' lower upper, upper - lower ≤ k → upper - lower ≤ k' →
    bisectLoop ops tol data k lower upper = bisectLoop ops tol data k' lower upper := by
  induction k with
  | zero =>
    intro k' lower upper h _
    cases k' with
    | zero => rfl
    | succ j =>
      have hm : lower + (upper - lower) / 2 = lower := by omega
      simp [bisectLoop, hm]
  | succ k ih =>
    intro k' lower upper h h'
    cases k' with
    | zero =>
      have hm : lower + (upper - lower) / 2 = lower := by omega
      simp [bisectLoop, hm]
    | succ j =>
      simp only [bisectLoop]
      split_ifs with hm hf
      · rfl
      · rw [ih j (lower + (upper - lower) / 2) upper (by omega) (by omega)]
      · rw [ih j lower (lower + (upper - lower) / 2) (by omega) (by omega)]

/-- One unfolding of the recursion, on the breakpoints alone. -/
theorem FitHermiteSpline_succ (fuel first last : Nat) :
    FitHermiteSpline ops tol data (fuel + 1) first last =
      if last - first < 3 then some []
      else if fitsTolerance ops tol data first last then some []
      else (FitHermiteSpline ops tol data fuel
              (bisectLoop ops tol data (last - first) first last).1 last).map
            (fun tail => (bisectLoop ops tol data (last - first) first last).1 :: tail) := by
  simp only [FitHermiteSpline, FitHermiteSplineLogged]
  split_ifs with h3 hf
  · rfl
  · rfl
  · cases FitHermiteSplineLogged ops tol data fuel
        (bisectLoop ops tol data (last - first) first last).1 last with
    | none => rfl
    | some p => rfl

/-- When the loop leaves `lower` at `samples.begin()`, the recursive call is made on the very
range the function was called on, and no budget is enough. -/
theorem FitHermiteSpline_none_of_lower_eq_first (first last : Nat)
    (h3 : ¬ last - first < 3) (hw : fitsTolerance ops tol data first last = false)
    (hl : (bisectLoop ops tol data (last - first) first last).1 = first) :
    ∀ fuel, FitHermiteSpline ops tol data fuel first last = none := by
  intro fuel
  induction fuel with
  | zero => rfl
  | succ fuel ih =>
    rw [FitHermiteSpline_succ, if_neg h3, hw, hl, ih]
    rfl

/-- A result obtained within some budget is the result for every larger budget. -/
theorem FitHermiteSpline_mono (fuel : Nat) : ∀ fuel' first last l, fuel ≤ fuel' →
    FitHermiteSpline ops tol data fuel first last = some l →
    FitHermiteSpline ops tol data fuel' first last = some l := by
  induction fuel with
  | zero => intro fuel' first last l _ h; simp [FitHermiteSpline, FitHermiteSplineLogged] at h
  | succ fuel ih =>
    intro fuel' first last l hle h
    obtain ⟨j, rfl⟩ : ∃ j, fuel' = j + 1 := ⟨fuel' - 1, by omega⟩
    rw [FitHermiteSpline_succ] at h ⊢
    split_ifs at h ⊢ with h3 hf
    · exact h
    · exact h
    · cases hrec : FitHermiteSpline ops tol data fuel
          (bisectLoop ops tol data (last - first) first last).1 last with
      | none => rw [hrec] at h; simp at h
      | some tail =>
        rw [hrec] at h
        rw [ih j _ last tail (by omega) hrec]
        exact h

/-- A larger tolerance accepts every range a smaller one accepts. -/
theorem fitsTolerance_mono (tol' : E) (htol : tol ≤ tol') (first last : Nat)
    (h : fitsTolerance ops tol data first last = true) :
    fitsTolerance ops tol' data first last = true := by
  unfold fitsTolerance at h ⊢
  cases hi : interpolate_range ops data first last with
  | none => rw [hi] at h; simp at h
  | some c =>
    rw [hi] at h
    simp only [decide_eq_true_eq] at h ⊢
    exact lt_of_lt_of_le h htol

/-- On a range inside `data` with at least one sample the condition of the `if` statements is
the comparison of the interpolation error with the tolerance. -/
theorem fitsTolerance_iff (first last : Nat) (h1 : first < last) (h2 : last ≤ data.length) :
    ∃ b l, data[first]? = some b ∧ data[last - 1]? = some l ∧
      (fitsTolerance ops tol data first last = true ↔
        ops.LInfinityError
          (ops.Hermite3 (ops.get_argument b, ops.get_argument l)
            (ops.get_value b, ops.get_value l) (ops.get_derivative b, ops.get_derivative l))
          (Range data first last) ops.get_argument ops.get_value < tol) := by
  have hb : first < data.length := by omega
  have hl : last - 1 < data.length := by omega
  refine ⟨data[first], data[last - 1], List.getElem?_eq_getElem hb,
    List.getElem?_eq_getElem hl, ?_⟩
  simp [fitsTolerance, interpolate_range, List.getElem?_eq_getElem hb,
    List.getElem?_eq_getElem hl]

end fit_lemmas

/-! ### Properties of `FitHermiteSpline` -/

section fit_claims

set_option maxRecDepth 1000000

variable {S A V D H E : Type} [LinearOrder E]

/-- C1, evaluated on the code: with tolerance `1/2` on `stepSamples` the function returns a
single breakpoint, `7` when the interpolant of one sample has error `0` and `6` when it never
fits; in both cases the Hermite cubic over the committed interval, `[0, 7)` or `[0, 6)`, has
an `LInfinityError` of `1` over those samples, which is not below the tolerance. -/
theorem FitHermiteSpline_committed_interval_error :
    ((∀ fuel, FitHermiteSpline (rationalOps 0) (1 / 2) stepSamples (fuel + 2) 0 8 = some [7]) ∧
        (interpolate_range (rationalOps 0) stepSamples 0 7).map
            (fun h => h.LInfinityError 0 (Range stepSamples 0 7)
              (rationalOps 0).get_argument (rationalOps 0).get_value) = some 1 ∧
        fitsTolerance (rationalOps 0) (1 / 2) stepSamples 0 7 = false) ∧
      ((∀ fuel,
          FitHermiteSpline (rationalOps 1000) (1 / 2) stepSamples (fuel + 2) 0 8 = some [6]) ∧
        (interpolate_range (rationalOps 1000) stepSamples 0 6).map
            (fun h => h.LInfinityError 1000 (Range stepSamples 0 6)
              (rationalOps 1000).get_argument (rationalOps 1000).get_value) = some 1 ∧
        fitsTolerance (rationalOps 1000) (1 / 2) stepSamples 0 6 = false) := by
  refine ⟨⟨fun fuel => ?_, ?_, ?_⟩, ⟨fun fuel => ?_, ?_, ?_⟩⟩
  · exact FitHermiteSpline_mono (rationalOps 0) (1 / 2) stepSamples 2 (fuel + 2) 0 8 [7]
      (by omega) (by with_unfolding_all decide)
  · with_unfolding_all decide
  · with_unfolding_all decide
  · exact FitHermiteSpline_mono (rationalOps 1000) (1 / 2) stepSamples 2 (fuel + 2) 0 8 [6]
      (by omega) (by with_unfolding_all decide)
  · with_unfolding_all decide
  · with_unfolding_all decide

/-- C2: on fewer than three samples `FitHermiteSpline` returns the empty list of breakpoints,
whatever the tolerance and the interpolant, and evaluates no interpolation error. -/
theorem FitHermiteSpline_fewer_than_three (ops : SplineOps S A V D H E) (tol : E)
    (data : List S) (fuel first last : Nat) (h : last - first < 3) :
    FitHermiteSpline ops tol data (fuel + 1) first last = some [] ∧
      FitHermiteSplineEvaluations ops tol data (fuel + 1) first last = some [] := by
  simp [FitHermiteSpline, FitHermiteSplineEvaluations, FitHermiteSplineLogged, h]

/-- The theorem `FitHermiteSpline_fewer_than_three` on two samples. -/
theorem FitHermiteSpline_fewer_than_three_witness :
    2 - 0 < 3 ∧
      FitHermiteSpline (rationalOps 0) 1 pairSamples 1 0 2 = some [] ∧
      FitHermiteSplineEvaluations (rationalOps 0) 1 pairSamples 1 0 2 = some [] :=
  ⟨by decide, FitHermiteSpline_fewer_than_three (rationalOps 0) 1 pairSamples 0 0 2 (by decide)⟩

/-- C3: on at least three samples, if the Hermite cubic over the whole range has an error
below the tolerance then `FitHermiteSpline` returns the empty list; and if it has not, every
list it returns is non-empty. -/
theorem FitHermiteSpline_whole_range (ops : SplineOps S A V D H E) (tol : E)
    (data : List S) (first last : Nat) (h3 : first + 3 ≤ last) :
    (fitsTolerance ops tol data first last = true →
        ∀ fuel, FitHermiteSpline ops tol data (fuel + 1) first last = some []) ∧
      (fitsTolerance ops tol data first last = false →
        ∀ fuel l, FitHermiteSpline ops tol data fuel first last = some l → l ≠ []) := by
  have hsize : ¬ last - first < 3 := by omega
  constructor
  · intro hf fuel
    rw [FitHermiteSpline_succ, if_neg hsize, hf]
    rfl
  · intro hf fuel l hl
    cases fuel with
    | zero => simp [FitHermiteSpline, FitHermiteSplineLogged] at hl
    | succ fuel =>
      rw [FitHermiteSpline_succ, if_neg hsize, hf] at hl
      simp only [Bool.false_eq_true, if_false, Option.map_eq_some'] at hl
      obtain ⟨tail, _, rfl⟩ := hl
      exact List.cons_ne_nil _ _

/-- The theorem `FitHermiteSpline_whole_range` on three samples of a line, which one cubic
fits, and on `stepSamples`, which no single cubic fits within `1/2`. -/
theorem FitHermiteSpline_whole_range_witness :
    (0 + 3 ≤ 3 ∧ fitsTolerance (rationalOps 0) 1 lineSamples 0 3 = true ∧
        FitHermiteSpline (rationalOps 0) 1 lineSamples 1 0 3 = some []) ∧
      (0 + 3 ≤ 8 ∧ fitsTolerance (rationalOps 0) (1 / 2) stepSamples 0 8 = false ∧
        FitHermiteSpline (rationalOps 0) (1 / 2) stepSamples 2 0 8 = some [7] ∧
        ([7] : List Nat) ≠ []) :=
  ⟨⟨by decide, by with_unfolding_all decide,
      (FitHermiteSpline_whole_range (rationalOps 0) 1 lineSamples 0 3 (by decide)).1
        (by with_unfolding_all decide) 0⟩,
    ⟨by decide, by with_unfolding_all decide, by with_unfolding_all decide,
      (FitHermiteSpline_whole_range (rationalOps 0) (1 / 2) stepSamples 0 8 (by decide)).2
        (by with_unfolding_all decide) 2 [7] (by with_unfolding_all decide)⟩⟩

/-- C4, evaluated on the code: on the three samples `peakSamples` with tolerance `0` no
range has an error below the tolerance, the loop leaves `lower` at `samples.begin()`, the
recursive call is made on the same range, and no recursion depth suffices: the function does
not return.  When the interpolant of one sample never fits, the same happens with the
tolerance `1/2`. -/
theorem FitHermiteSpline_no_result :
    ((bisectLoop (rationalOps 0) 0 peakSamples 3 0 3).1 = 0 ∧
        ∀ fuel, FitHermiteSpline (rationalOps 0) 0 peakSamples fuel 0 3 = none) ∧
      (∀ fuel, FitHermiteSpline (rationalOps 1000) 0 peakSamples fuel 0 3 = none) ∧
      (∀ fuel, FitHermiteSpline (rationalOps 1000) (1 / 2) peakSamples fuel 0 3 = none) :=
  ⟨⟨by with_unfolding_all decide,
      FitHermiteSpline_none_of_lower_eq_first (rationalOps 0) 0 peakSamples 0 3 (by decide)
        (by with_unfolding_all decide) (by with_unfolding_all decide)⟩,
    FitHermiteSpline_none_of_lower_eq_first (rationalOps 1000) 0 peakSamples 0 3 (by decide)
      (by with_unfolding_all decide) (by with_unfolding_all decide),
    FitHermiteSpline_none_of_lower_eq_first (rationalOps 1000) (1 / 2) peakSamples 0 3
      (by decide) (by with_unfolding_all decide) (by with_unfolding_all decide)⟩

/-- C5, evaluated on the code: with tolerance `1` on `spikeSamples` the function returns the
breakpoints `8` and `11`, yet the Hermite cubic over `[0, 9)`, the first committed interval
extended by one sample, has an error below the tolerance.  When the interpolant of one sample
never fits, the same happens on `rampSamples` with tolerance `1/2`: the breakpoint is `2` and
the cubic over `[0, 3)` fits. -/
theorem FitHermiteSpline_committed_interval_extends :
    ((∀ fuel, FitHermiteSpline (rationalOps 0) 1 spikeSamples (fuel + 3) 0 12 = some [8, 11]) ∧
        fitsTolerance (rationalOps 0) 1 spikeSamples 0 9 = true) ∧
      ((∀ fuel,
          FitHermiteSpline (rationalOps 1000) (1 / 2) rampSamples (fuel + 2) 0 4 = some [2]) ∧
        fitsTolerance (rationalOps 1000) (1 / 2) rampSamples 0 3 = true) := by
  refine ⟨⟨fun fuel => ?_, ?_⟩, ⟨fun fuel => ?_, ?_⟩⟩
  · exact FitHermiteSpline_mono (rationalOps 0) 1 spikeSamples 3 (fuel + 3) 0 12 [8, 11]
      (by omega) (by with_unfolding_all decide)
  · with_unfolding_all decide
  · exact FitHermiteSpline_mono (rationalOps 1000) (1 / 2) rampSamples 2 (fuel + 2) 0 4 [2]
      (by omega) (by with_unfolding_all decide)
  · with_unfolding_all decide

/-- C6 as stated fails: on `kinkSamples` the tolerance `1` gives one breakpoint and the larger
tolerance `3/2` gives two, both when the interpolant of one sample has error `0` and when it
never fits. -/
theorem FitHermiteSpline_count_not_monotone :
    (1 : ℚ) ≤ 3 / 2 ∧
      (FitHermiteSpline (rationalOps 0) 1 kinkSamples 3 0 16 = some [7] ∧
        FitHermiteSpline (rationalOps 0) (3 / 2) kinkSamples 3 0 16 = some [11, 15] ∧
        ¬ ([11, 15] : List Nat).length ≤ ([7] : List Nat).length) ∧
      (FitHermiteSpline (rationalOps 1000) 1 kinkSamples 3 0 16 = some [6] ∧
        FitHermiteSpline (rationalOps 1000) (3 / 2) kinkSamples 3 0 16 = some [10, 13] ∧
        ¬ ([10, 13] : List Nat).length ≤ ([6] : List Nat).length) := by
  refine ⟨by norm_num, ⟨?_, ?_, by decide⟩, ⟨?_, ?_, by decide⟩⟩
  · with_unfolding_all decide
  · with_unfolding_all decide
  · with_unfolding_all decide
  · with_unfolding_all decide

/-- C6, amended: when `FitHermiteSpline` returns no breakpoint for a tolerance, it returns no
breakpoint for every larger tolerance on the same samples. -/
theorem FitHermiteSpline_empty_mono (ops : SplineOps S A V D H E) (tol1 tol2 : E)
    (data : List S) (fuel first last : Nat) (htol : tol1 ≤ tol2)
    (h : FitHermiteSpline ops tol1 data fuel first last = some []) :
    FitHermiteSpline ops tol2 data fuel first last = some [] := by
  cases fuel with
  | zero => simp [FitHermiteSpline, FitHermiteSplineLogged] at h
  | succ fuel =>
    rw [FitHermiteSpline_succ] at h ⊢
    split_ifs at h with h3 hf
    · rw [if_pos h3]
    · rw [if_neg h3, fitsTolerance_mono ops tol1 data tol2 htol first last hf]
      rfl
    · simp at h

/-- The theorem `FitHermiteSpline_empty_mono` on three samples of a line with the tolerances
`1` and `2`. -/
theorem FitHermiteSpline_empty_mono_witness :
    (1 : ℚ) ≤ 2 ∧ FitHermiteSpline (rationalOps 0) 1 lineSamples 1 0 3 = some [] ∧
      FitHermiteSpline (rationalOps 0) 2 lineSamples 1 0 3 = some [] :=
  ⟨by norm_num, by with_unfolding_all decide,
    FitHermiteSpline_empty_mono (rationalOps 0) 1 2 lineSamples 1 0 3 (by norm_num)
      (by with_unfolding_all decide)⟩

/-- C7: whenever `FitHermiteSpline` returns, the breakpoints are strictly increasing, and each
of them is strictly after `samples.begin()` and strictly before `samples.end()`. -/
theorem FitHermiteSpline_breakpoints_ordered (ops : SplineOps S A V D H E) (tol : E)
    (data : List S) (fuel first last : Nat) (l : List Nat)
    (h : FitHermiteSpline ops tol data fuel first last = some l) :
    List.Pairwise (fun a b => a < b) l ∧ ∀ b ∈ l, first < b ∧ b < last := by
  induction fuel generalizing first l with
  | zero => simp [FitHermiteSpline, FitHermiteSplineLogged] at h
  | succ fuel ih =>
    rw [FitHermiteSpline_succ] at h
    split_ifs at h with h3 hf
    · cases h; simp
    · cases h; simp
    · simp only [Option.map_eq_some'] at h
      obtain ⟨tail, htail, rfl⟩ := h
      have hb := bisectLoop_lower_bounds ops tol data (last - first) first last (by omega)
      have hne : (bisectLoop ops tol data (last - first) first last).1 ≠ first := by
        intro heq
        have hnone := FitHermiteSpline_none_of_lower_eq_first ops tol data first last h3
          (by simpa using hf) heq fuel
        rw [heq] at htail
        rw [hnone] at htail
        cases htail
      obtain ⟨hp, hr⟩ := ih _ tail htail
      refine ⟨List.pairwise_cons.mpr ⟨fun b hb' => (hr b hb').1, hp⟩, ?_⟩
      intro b hb'
      rcases List.mem_cons.mp hb' with rfl | hmem
      · exact ⟨by omega, hb.2⟩
      · have := hr b hmem
        exact ⟨by omega, this.2⟩

/-- The theorem `FitHermiteSpline_breakpoints_ordered` on `kinkSamples` with tolerance
`3/2`, where the breakpoints are `11` and `15`. -/
theorem FitHermiteSpline_breakpoints_ordered_witness :
    FitHermiteSpline (rationalOps 0) (3 / 2) kinkSamples 3 0 16 = some [11, 15] ∧
      List.Pairwise (fun a b => a < b) [11, 15] ∧ ∀ b ∈ [11, 15], 0 < b ∧ b < 16 :=
  ⟨by with_unfolding_all decide,
    FitHermiteSpline_breakpoints_ordered (rationalOps 0) (3 / 2) kinkSamples 3 0 16 [11, 15]
      (by with_unfolding_all decide)⟩

end fit_claims

end numerics

namespace physics

/-! ### Properties of `KeplerOrbit` -/

section kepler_claims

variable {K : Type} [LinearOrderedField K]

/-- C8: `TestParticleStateVectors` ends in the fatal "not yet implemented" exactly when the
eccentricity is at least one, whatever the other elements, the gravitational parameter and
the collaborators are. -/
theorem TestParticleStateVectors_not_yet_implemented_iff (ops : OrbitOps K)
    (elements : KeplerianElements K) (gravitational_parameter : K) :
    TestParticleStateVectors ops elements gravitational_parameter
        = Except.error Fatal.not_yet_implemented ↔
      1 ≤ elements.eccentricity := by
  unfold TestParticleStateVectors
  by_cases h : elements.eccentricity < 1
  · simp only [h, if_true]
    constructor
    · intro hres
      split at hres <;> cases hres
    · intro hge
      exact absurd h (not_lt.mpr hge)
  · simp only [h, if_false]
    constructor
    · intro _
      exact not_lt.mp h
    · intro _
      split_ifs <;> rfl

/-- C9: for eccentricity zero `TestParticleStateVectors` returns the state vectors computed
from the eccentric anomaly equal to the mean anomaly, whatever the root finder (also one that
always fails); and the Kepler equation vanishes at both ends of the bracket that would be
passed to `Bisect`. -/
theorem TestParticleStateVectors_circular (ops : OrbitOps K)
    (elements : KeplerianElements K) (gravitational_parameter : K)
    (h : elements.eccentricity = 0) :
    TestParticleStateVectors ops elements gravitational_parameter
        = Except.ok (EllipticStateVectors ops elements gravitational_parameter
            elements.mean_anomaly) ∧
      kepler_equation ops elements.eccentricity elements.mean_anomaly
          (elements.mean_anomaly - elements.eccentricity * Radian) = 0 ∧
      kepler_equation ops elements.eccentricity elements.mean_anomaly
          (elements.mean_anomaly + elements.eccentricity * Radian) = 0 := by
  refine ⟨?_, ?_, ?_⟩
  · simp [TestParticleStateVectors, h]
  · simp [kepler_equation, h]
  · simp [kepler_equation, h]

/-- The theorem `TestParticleStateVectors_circular` on a circular orbit over the rationals,
with a root finder that always fails. -/
theorem TestParticleStateVectors_circular_witness :
    (circularOrbit.elements_at_epoch_.eccentricity = 0) ∧
      (TestParticleStateVectors rationalOrbitOps circularOrbit.elements_at_epoch_ 3
          = Except.ok (EllipticStateVectors rationalOrbitOps circularOrbit.elements_at_epoch_ 3
              circularOrbit.elements_at_epoch_.mean_anomaly) ∧
        kepler_equation rationalOrbitOps circularOrbit.elements_at_epoch_.eccentricity
            circularOrbit.elements_at_epoch_.mean_anomaly
            (circularOrbit.elements_at_epoch_.mean_anomaly
              - circularOrbit.elements_at_epoch_.eccentricity * Radian) = 0 ∧
        kepler_equation rationalOrbitOps circularOrbit.elements_at_epoch_.eccentricity
            circularOrbit.elements_at_epoch_.mean_anomaly
            (circularOrbit.elements_at_epoch_.mean_anomaly
              + circularOrbit.elements_at_epoch_.eccentricity * Radian) = 0) :=
  ⟨rfl, TestParticleStateVectors_circular rationalOrbitOps circularOrbit.elements_at_epoch_ 3
    rfl⟩

end kepler_claims

/-! ### Facts about the folds of `t_min` and `t_max` and about the map -/

section ephemeris_lemmas

variable {K T D : Type} [LinearOrder K]

/-- The running maximum is at least its starting value. -/
theorem le_foldl_max_init (f : Nat × T → K) (l : List (Nat × T)) : ∀ init : K,
    init ≤ l.foldl (fun acc pair => max acc (f pair)) init := by
  induction l with
  | nil => intro init; exact le_refl _
  | cons p rest ih =>
    intro init
    exact le_trans (le_max_left _ _) (ih (max init (f p)))

/-- The running maximum is at least the value at every entry. -/
theorem le_foldl_max_of_mem (f : Nat × T → K) (l : List (Nat × T)) : ∀ init : K,
    ∀ p ∈ l, f p ≤ l.foldl (fun acc pair => max acc (f pair)) init := by
  induction l with
  | nil => intro init p hp; cases hp
  | cons q rest ih =>
    intro init p hp
    rcases List.mem_cons.mp hp with rfl | hmem
    · exact le_trans (le_max_right _ _) (le_foldl_max_init f rest _)
    · exact ih _ p hmem

/-- The running minimum is at most its starting value. -/
theorem foldl_min_le_init (f : Nat × T → K) (l : List (Nat × T)) : ∀ init : K,
    l.foldl (fun acc pair => min acc (f pair)) init ≤ init := by
  induction l with
  | nil => intro init; exact le_refl _
  | cons p rest ih =>
    intro init
    exact le_trans (ih (min init (f p))) (min_le_left _ _)

/-- The running minimum is at most the value at every entry. -/
theorem foldl_min_le_of_mem (f : Nat × T → K) (l : List (Nat × T)) : ∀ init : K,
    ∀ p ∈ l, l.foldl (fun acc pair => min acc (f pair)) init ≤ f p := by
  induction l with
  | nil => intro init p hp; cases hp
  | cons q rest ih =>
    intro init p hp
    rcases List.mem_cons.mp hp with rfl | hmem
    · exact le_trans (foldl_min_le_init f rest _) (min_le_right _ _)
    · exact ih _ p hmem

/-- The running minimum is its starting value or the value at some entry. -/
theorem foldl_min_attained (f : Nat × T → K) (l : List (Nat × T)) : ∀ init : K,
    l.foldl (fun acc pair => min acc (f pair)) init = init ∨
      ∃ p ∈ l, f p = l.foldl (fun acc pair => min acc (f pair)) init := by
  induction l with
  | nil => intro init; exact Or.inl rfl
  | cons q rest ih =>
    intro init
    rcases ih (min init (f q)) with h | ⟨p, hp, hpe⟩
    · rcases min_choice init (f q) with hm | hm
      · left
        simp only [List.foldl_cons]
        rw [h, hm]
      · right
        refine ⟨q, List.mem_cons_self _ _, ?_⟩
        simp only [List.foldl_cons]
        rw [h, hm]
    · exact Or.inr ⟨p, List.mem_cons_of_mem _ hp, hpe⟩

/-- An `emplace` does not change what is found under another key. -/
theorem FindOrDie_emplace_of_ne (k : Nat) (c : T) (m : List (Nat × T)) (key : Nat)
    (hne : key ≠ k) : FindOrDie (emplace k c m) key = FindOrDie m key := by
  induction m with
  | nil => simp [emplace, FindOrDie, hne]
  | cons p rest ih =>
    obtain ⟨k0, v0⟩ := p
    simp only [emplace]
    split_ifs with h1 h2
    · rfl
    · simp [FindOrDie, hne]
    · simp only [FindOrDie, ih]

/-- After an `emplace`, the key holds the new value or the value it held before. -/
theorem FindOrDie_emplace_self (k : Nat) (c : T) (m : List (Nat × T)) :
    FindOrDie (emplace k c m) k = Except.ok c ∨
      ∃ v, FindOrDie m k = Except.ok v ∧ FindOrDie (emplace k c m) k = Except.ok v := by
  induction m with
  | nil => left; simp [emplace, FindOrDie]
  | cons p rest ih =>
    obtain ⟨k0, v0⟩ := p
    simp only [emplace]
    split_ifs with h1 h2
    · right
      exact ⟨v0, by simp [FindOrDie, h1], by simp [FindOrDie, h1]⟩
    · left
      simp [FindOrDie]
    · simp only [FindOrDie, if_neg h1]
      exact ih

/-- The loop of the constructor keeps the map a map from the bodies seen so far to the new
trajectory. -/
theorem FindOrDie_foldl_emplace (c : T) (bodies : List Nat) :
    ∀ (m : List (Nat × T)) (owned : Nat → Prop),
      (∀ key, (owned key → FindOrDie m key = Except.ok c) ∧
        (¬ owned key → FindOrDie m key = Except.error CheckFailure.key_not_found)) →
      ∀ key, (key ∈ bodies ∨ owned key →
          FindOrDie (bodies.foldl (fun trajectories body => emplace body c trajectories) m) key
            = Except.ok c) ∧
        (¬ (key ∈ bodies ∨ owned key) →
          FindOrDie (bodies.foldl (fun trajectories body => emplace body c trajectories) m) key
            = Except.error CheckFailure.key_not_found) := by
  induction bodies with
  | nil =>
    intro m owned h key
    simpa using h key
  | cons b rest ih =>
    intro m owned h key
    have step : ∀ key', ((key' = b ∨ owned key') → FindOrDie (emplace b c m) key' = Except.ok c) ∧
        (¬ (key' = b ∨ owned key') →
          FindOrDie (emplace b c m) key' = Except.error CheckFailure.key_not_found) := by
      intro key'
      by_cases hk : key' = b
      · subst hk
        refine ⟨fun _ => ?_, fun hn => absurd (Or.inl rfl) hn⟩
        rcases FindOrDie_emplace_self key' c m with h1 | ⟨v, hv, hv'⟩
        · exact h1
        · by_cases ho : owned key'
          · rw [hv', ← hv]
            exact (h key').1 ho
          · rw [(h key').2 ho] at hv
            cases hv
      · rw [FindOrDie_emplace_of_ne b c m key' hk]
        refine ⟨fun hor => ?_, fun hn => ?_⟩
        · rcases hor with h1 | h1
          · exact absurd h1 hk
          · exact (h key').1 h1
        · exact (h key').2 (fun ho => hn (Or.inr ho))
    have := ih (emplace b c m) (fun key' => key' = b ∨ owned key') step key
    simp only [List.foldl_cons, List.mem_cons]
    constructor
    · intro hor
      apply this.1
      tauto
    · intro hn
      apply this.2
      tauto

end ephemeris_lemmas

section ephemeris_loop_lemmas

variable {K T D : Type}

/-- The callback `AppendState` leaves the ephemeris as it is, whatever the states. -/
theorem foldl_AppendState (states : List (List D)) (e : Ephemeris K T D) :
    states.foldl Ephemeris.AppendState e = e := by
  induction states with
  | nil => rfl
  | cons state rest ih => simpa [Ephemeris.AppendState] using ih

/-- The loop of `ForgetBefore` keeps the bodies and replaces each trajectory by what
`ContinuousTrajectory::ForgetBefore` makes of it. -/
theorem forgetEntries_spec (ops : TrajectoryOps K T) (t : K) (l : List (Nat × T)) :
    ∀ l', forgetEntries ops t l = some l' →
      List.Forall₂ (fun p p' => p'.1 = p.1 ∧ ops.ForgetBefore t p.2 = some p'.2) l l' := by
  induction l with
  | nil =>
    intro l' h
    simp only [forgetEntries, Option.some.injEq] at h
    subst h
    exact List.Forall₂.nil
  | cons p rest ih =>
    intro l' h
    obtain ⟨b, tr⟩ := p
    simp only [forgetEntries] at h
    cases hf : ops.ForgetBefore t tr with
    | none => rw [hf] at h; cases h
    | some forgotten =>
      rw [hf] at h
      cases hr : forgetEntries ops t rest with
      | none => rw [hr] at h; cases h
      | some others =>
        rw [hr] at h
        simp only [Option.some.injEq] at h
        subst h
        exact List.Forall₂.cons ⟨rfl, hf⟩ (ih others hr)

/-- Entries related one by one with equal bodies have the same bodies in the same order. -/
theorem forall₂_keys (Q : Nat × T → Nat × T → Prop) (l l' : List (Nat × T))
    (h : List.Forall₂ (fun p p' => p'.1 = p.1 ∧ Q p p') l l') :
    l'.map Prod.fst = l.map Prod.fst := by
  induction h with
  | nil => rfl
  | cons hhead _ ih => simp [hhead.1, ih]

/-- The loop of `ForgetBefore` completes when every call on a trajectory does. -/
theorem forgetEntries_isSome (ops : TrajectoryOps K T) (t : K) (l : List (Nat × T))
    (h : ∀ p ∈ l, (ops.ForgetBefore t p.2).isSome = true) :
    (forgetEntries ops t l).isSome = true := by
  induction l with
  | nil => rfl
  | cons p rest ih =>
    obtain ⟨b, tr⟩ := p
    have hp := h (b, tr) (List.mem_cons_self _ _)
    have hrest := ih (fun q hq => h q (List.mem_cons_of_mem _ hq))
    simp only [forgetEntries]
    cases hf : ops.ForgetBefore t tr with
    | none => rw [hf] at hp; cases hp
    | some forgotten =>
      cases hr : forgetEntries ops t rest with
      | none => rw [hr] at hrest; cases hrest
      | some others => rfl

/-- The keys after an `emplace` are the new key and the keys from before. -/
theorem mem_keys_emplace (k : Nat) (c : T) (m : List (Nat × T)) (key : Nat) :
    key ∈ (emplace k c m).map Prod.fst ↔ key = k ∨ key ∈ m.map Prod.fst := by
  induction m with
  | nil => simp [emplace]
  | cons p rest ih =>
    obtain ⟨k0, v0⟩ := p
    simp only [emplace]
    split_ifs with h1 h2
    · subst h1
      simp only [List.map_cons, List.mem_cons]
      tauto
    · simp only [List.map_cons, List.mem_cons]
    · simp only [List.map_cons, List.mem_cons] at ih ⊢
      rw [ih]
      tauto

/-- An entry after an `emplace` is an entry from before or the new one. -/
theorem mem_emplace (k : Nat) (c : T) (m : List (Nat × T)) (p : Nat × T)
    (hp : p ∈ emplace k c m) : p ∈ m ∨ p = (k, c) := by
  induction m with
  | nil => simpa [emplace] using hp
  | cons q rest ih =>
    obtain ⟨k0, v0⟩ := q
    simp only [emplace] at hp
    split_ifs at hp with h1 h2
    · exact Or.inl hp
    · rcases List.mem_cons.mp hp with h | h
      · exact Or.inr h
      · exact Or.inl h
    · rcases List.mem_cons.mp hp with h | h
      · exact Or.inl (h ▸ List.mem_cons_self _ _)
      · rcases ih h with h' | h'
        · exact Or.inl (List.mem_cons_of_mem _ h')
        · exact Or.inr h'

/-- An `emplace` keeps the keys in strictly increasing order, the order of a `std::map`. -/
theorem pairwise_keys_emplace (k : Nat) (c : T) (m : List (Nat × T))
    (h : List.Pairwise (fun a b => a < b) (m.map Prod.fst)) :
    List.Pairwise (fun a b => a < b) ((emplace k c m).map Prod.fst) := by
  induction m with
  | nil => simp [emplace]
  | cons p rest ih =>
    obtain ⟨k0, v0⟩ := p
    simp only [List.map_cons, List.pairwise_cons] at h
    simp only [emplace]
    split_ifs with h1 h2
    · simpa only [List.map_cons, List.pairwise_cons] using h
    · simp only [List.map_cons, List.pairwise_cons, List.mem_cons]
      refine ⟨?_, h⟩
      rintro b (rfl | hb)
      · exact h2
      · exact lt_trans h2 (h.1 b hb)
    · simp only [List.map_cons, List.pairwise_cons]
      refine ⟨?_, ih h.2⟩
      intro b hb
      rcases (mem_keys_emplace k c rest b).mp hb with rfl | hb'
      · omega
      · exact h.1 b hb'

/-- In a map, whose keys are in strictly increasing order, `FindOrDie` returns a value exactly
when it is the value stored under the key. -/
theorem FindOrDie_eq_ok_iff (m : List (Nat × T))
    (h : List.Pairwise (fun a b => a < b) (m.map Prod.fst)) (key : Nat) (value : T) :
    FindOrDie m key = Except.ok value ↔ (key, value) ∈ m := by
  induction m with
  | nil => simp [FindOrDie]
  | cons p rest ih =>
    obtain ⟨k0, v0⟩ := p
    simp only [List.map_cons, List.pairwise_cons] at h
    simp only [FindOrDie]
    split_ifs with hk
    · subst hk
      simp only [Except.ok.injEq, List.mem_cons, Prod.mk.injEq, true_and]
      constructor
      · intro hv
        exact Or.inl hv.symm
      · rintro (hv | hmem)
        · exact hv.symm
        · have := h.1 key (List.mem_map_of_mem Prod.fst hmem)
          omega
    · rw [ih h.2]
      simp only [List.mem_cons, Prod.mk.injEq]
      constructor
      · exact fun hmem => Or.inr hmem
      · rintro (⟨hk', _⟩ | hmem)
        · exact absurd hk' hk
        · exact hmem

/-- The lookup `FindOrDie` fails exactly when the key is not in the map. -/
theorem FindOrDie_eq_error_iff (m : List (Nat × T)) (key : Nat) (failure : CheckFailure) :
    FindOrDie m key = Except.error failure ↔
      failure = CheckFailure.key_not_found ∧ key ∉ m.map Prod.fst := by
  induction m with
  | nil =>
    simp only [FindOrDie, Except.error.injEq, List.map_nil, List.not_mem_nil, not_false_eq_true,
      and_true]
    exact eq_comm
  | cons p rest ih =>
    obtain ⟨k0, v0⟩ := p
    simp only [FindOrDie]
    split_ifs with hk
    · subst hk
      simp
    · rw [ih]
      simp only [List.map_cons, List.mem_cons, not_or]
      tauto

/-- The loop of the constructor keeps the keys in strictly increasing order; its keys are the
bodies it has seen, and it stores the new trajectory under each. -/
theorem foldl_emplace_map (c : T) (bodies : List Nat) :
    ∀ m : List (Nat × T), List.Pairwise (fun a b => a < b) (m.map Prod.fst) →
      (∀ p ∈ m, p.2 = c) →
      List.Pairwise (fun a b => a < b)
          ((bodies.foldl (fun trajectories body => emplace body c trajectories) m).map
            Prod.fst) ∧
        (∀ key,
          key ∈ (bodies.foldl (fun trajectories body => emplace body c trajectories) m).map
              Prod.fst ↔ key ∈ bodies ∨ key ∈ m.map Prod.fst) ∧
        (∀ p ∈ bodies.foldl (fun trajectories body => emplace body c trajectories) m,
          p.2 = c) := by
  induction bodies with
  | nil =>
    intro m hs hv
    exact ⟨hs, fun key => by simp, hv⟩
  | cons b rest ih =>
    intro m hs hv
    have hv' : ∀ p ∈ emplace b c m, p.2 = c := by
      intro p hp
      rcases mem_emplace b c m p hp with h | h
      · exact hv p h
      · rw [h]
    obtain ⟨h1, h2, h3⟩ := ih (emplace b c m) (pairwise_keys_emplace b c m hs) hv'
    refine ⟨h1, ?_, h3⟩
    intro key
    simp only [List.foldl_cons, List.mem_cons]
    rw [h2 key, mem_keys_emplace]
    tauto

end ephemeris_loop_lemmas

/-! ### Properties of `Ephemeris` -/

section ephemeris_claims

/-- C12, evaluated on the code: the constructor fails its first check, `CHECK(!bodies.empty())`,
for every collection of bodies, also a non-empty one of the size of `initial_state`: the check
reads the parameter `bodies` after the member initializer has moved it into `bodies_`. -/
theorem Ephemeris_make_fails {K T D : Type} (ops : TrajectoryOps K T) (bodies : List Nat)
    (initial_state : List D) (initial_time step low_fitting_tolerance high_fitting_tolerance : K) :
    Ephemeris.make ops bodies initial_state initial_time step low_fitting_tolerance
        high_fitting_tolerance
      = Except.error CheckFailure.bodies_empty := by
  simp [Ephemeris.make]

/-- C13, evaluated on the code: on `pastEphemeris`, whose only trajectory has `t_min() = -2`,
`Ephemeris::t_min` returns `0`, the value the local `Time t_min;` starts from, and not the
maximum `-2` of the minima of the trajectories.  Whatever value `d` a default-constructed
`Time` has, a trajectory starting at `d - 1` gives `d`. -/
theorem Ephemeris_t_min_of_negative_minima :
    Ephemeris.t_min (intervalTrajectoryOps (0, 0)) 0 pastEphemeris = 0 ∧
      IsGreatest
        {x | ∃ p ∈ pastEphemeris.trajectories_, (intervalTrajectoryOps (0, 0)).t_min p.2 = x}
        (-2) ∧
      (∀ d : ℚ,
        Ephemeris.t_min (intervalTrajectoryOps (0, 0)) d
            { pastEphemeris with trajectories_ := [(1, (d - 1, d))] } = d) := by
  refine ⟨?_, ⟨⟨(1, (-2, -1)), by simp [pastEphemeris], rfl⟩, ?_⟩, ?_⟩
  · simp [Ephemeris.t_min, pastEphemeris, intervalTrajectoryOps]
  · rintro x ⟨p, hp, rfl⟩
    simp only [pastEphemeris, List.mem_singleton] at hp
    subst hp
    exact le_refl _
  · intro d
    simp [Ephemeris.t_min, intervalTrajectoryOps]

/-- C14: for an ephemeris with at least one trajectory, `t_max()` returns the minimum of the
`t_max()` of the owned trajectories: the value of one of them, below the value of each. -/
theorem Ephemeris_t_max_is_minimum {K T D : Type} [LinearOrder K] (ops : TrajectoryOps K T) (e : Ephemeris K T D)
    (h : e.trajectories_ ≠ []) :
    ∃ m, e.t_max ops = some m ∧
      IsLeast {x | ∃ p ∈ e.trajectories_, ops.t_max p.2 = x} m := by
  cases hl : e.trajectories_ with
  | nil => exact absurd hl h
  | cons first rest =>
    refine ⟨(first :: rest).foldl (fun t_max pair => min t_max (ops.t_max pair.2))
      (ops.t_max first.2), ?_, ?_, ?_⟩
    · simp only [Ephemeris.t_max, hl]
    · rcases foldl_min_attained (fun pair : Nat × T => ops.t_max pair.2) (first :: rest)
          (ops.t_max first.2) with h1 | ⟨p, hp, hpe⟩
      · exact ⟨first, List.mem_cons_self _ _, h1.symm⟩
      · exact ⟨p, hp, hpe⟩
    · rintro x ⟨p, hp, rfl⟩
      exact foldl_min_le_of_mem (fun pair : Nat × T => ops.t_max pair.2) (first :: rest) _ p hp

/-- The theorem `Ephemeris_t_max_is_minimum` on `twoBodyEphemeris`, whose trajectories end at
`10` and `8`. -/
theorem Ephemeris_t_max_is_minimum_witness :
    twoBodyEphemeris.trajectories_ ≠ [] ∧
      ∃ m, twoBodyEphemeris.t_max (intervalTrajectoryOps (0, 0)) = some m ∧
        IsLeast
          {x | ∃ p ∈ twoBodyEphemeris.trajectories_,
            (intervalTrajectoryOps (0, 0)).t_max p.2 = x} m :=
  ⟨by simp [twoBodyEphemeris],
    Ephemeris_t_max_is_minimum (intervalTrajectoryOps (0, 0)) twoBodyEphemeris
      (by simp [twoBodyEphemeris])⟩

/-- C15: for every owned trajectory `T`, `T.t_min() ≤ Ephemeris::t_min()` and
`Ephemeris::t_max()` has a value, which is at most `T.t_max()`; this whatever value a
default-constructed `Time` has. -/
theorem Ephemeris_range_within_trajectories {K T D : Type} [LinearOrder K]
    (ops : TrajectoryOps K T) (default_time : K)
    (e : Ephemeris K T D) (p : Nat × T) (hp : p ∈ e.trajectories_) :
    ops.t_min p.2 ≤ e.t_min ops default_time ∧
      ∃ m, e.t_max ops = some m ∧ m ≤ ops.t_max p.2 := by
  constructor
  · exact le_foldl_max_of_mem (fun pair : Nat × T => ops.t_min pair.2) e.trajectories_ _ p hp
  · cases hl : e.trajectories_ with
    | nil => rw [hl] at hp; cases hp
    | cons first rest =>
      refine ⟨(first :: rest).foldl (fun t_max pair => min t_max (ops.t_max pair.2))
        (ops.t_max first.2), ?_, ?_⟩
      · simp only [Ephemeris.t_max, hl]
      · rw [hl] at hp
        exact foldl_min_le_of_mem (fun pair : Nat × T => ops.t_max pair.2) (first :: rest) _
          p hp

/-- The theorem `Ephemeris_range_within_trajectories` on the second trajectory of
`twoBodyEphemeris`, which covers `[1, 8)`. -/
theorem Ephemeris_range_within_trajectories_witness :
    ((2, ((1 : ℚ), (8 : ℚ))) ∈ twoBodyEphemeris.trajectories_) ∧
      ((1 : ℚ) ≤ twoBodyEphemeris.t_min (intervalTrajectoryOps (0, 0)) 0 ∧
        ∃ m, twoBodyEphemeris.t_max (intervalTrajectoryOps (0, 0)) = some m ∧ m ≤ (8 : ℚ)) :=
  ⟨by simp [twoBodyEphemeris],
    Ephemeris_range_within_trajectories (intervalTrajectoryOps (0, 0)) 0 twoBodyEphemeris
      (2, (1, 8)) (by simp [twoBodyEphemeris])⟩

/-- C17, evaluated on the code: `Prolong` leaves the ephemeris as it was, whatever states the
integrator produces, because `AppendState` is empty.  On `twoBodyEphemeris`, where `t_max()`
is `8`, after `Prolong(20)` it is still `8`, which is not at least `20`. -/
theorem Ephemeris_Prolong_appends_nothing :
    (∀ (Solve : List Unit → ℚ → ℚ → List (List Unit)) (e : Ephemeris ℚ (ℚ × ℚ) Unit) (t : ℚ),
        e.Prolong Solve t = e) ∧
      twoBodyEphemeris.t_max (intervalTrajectoryOps (0, 0)) = some 8 ∧
      (twoBodyEphemeris.Prolong twoStepSolve 20).t_max (intervalTrajectoryOps (0, 0)) = some 8 ∧
      ¬ ((20 : ℚ) ≤ 8) := by
  have hP : ∀ (Solve : List Unit → ℚ → ℚ → List (List Unit)) (e : Ephemeris ℚ (ℚ × ℚ) Unit)
      (t : ℚ), e.Prolong Solve t = e := fun Solve e t => foldl_AppendState _ e
  refine ⟨hP, ?_, ?_, by norm_num⟩
  · norm_num [Ephemeris.t_max, twoBodyEphemeris, intervalTrajectoryOps]
  · rw [hP]
    norm_num [Ephemeris.t_max, twoBodyEphemeris, intervalTrajectoryOps]

/-- C18: when `Ephemeris::ForgetBefore(t)` returns, the entries of `trajectories_` are, in
order, those from before the call with the same body and with the trajectory that
`ContinuousTrajectory::ForgetBefore(t)` makes of the one stored before; the bodies and the
other members are unchanged.  It returns whenever the call on each trajectory does. -/
theorem Ephemeris_ForgetBefore_propagates {K T D : Type} (ops : TrajectoryOps K T)
    (e e' : Ephemeris K T D) (t : K) (h : e.ForgetBefore ops t = some e') :
    List.Forall₂ (fun p p' => p'.1 = p.1 ∧ ops.ForgetBefore t p.2 = some p'.2)
        e.trajectories_ e'.trajectories_ ∧
      e'.trajectories_.map Prod.fst = e.trajectories_.map Prod.fst ∧
      e'.bodies_ = e.bodies_ ∧ e'.last_state_ = e.last_state_ ∧ e'.step_ = e.step_ ∧
      ((∀ p ∈ e.trajectories_, (ops.ForgetBefore t p.2).isSome = true) →
        (e.ForgetBefore ops t).isSome = true) := by
  unfold Ephemeris.ForgetBefore at h
  cases hf : forgetEntries ops t e.trajectories_ with
  | none => rw [hf] at h; cases h
  | some trajectories =>
    rw [hf] at h
    simp only [Option.some.injEq] at h
    subst h
    have hspec := forgetEntries_spec ops t e.trajectories_ trajectories hf
    refine ⟨hspec, ?_, rfl, rfl, rfl, ?_⟩
    · exact forall₂_keys _ _ _ hspec
    · intro _
      simp [Ephemeris.ForgetBefore, hf]

/-- The theorem `Ephemeris_ForgetBefore_propagates` on `twoBodyEphemeris` with `t = 5`: the
trajectories then cover `[5, 10)` and `[5, 8)`. -/
theorem Ephemeris_ForgetBefore_propagates_witness :
    twoBodyEphemeris.ForgetBefore (intervalTrajectoryOps (0, 0)) 5
        = some { twoBodyEphemeris with trajectories_ := [(1, (5, 10)), (2, (5, 8))] } ∧
      List.Forall₂
        (fun p p' => p'.1 = p.1 ∧ (intervalTrajectoryOps (0, 0)).ForgetBefore 5 p.2 = some p'.2)
        twoBodyEphemeris.trajectories_ [(1, (5, 10)), (2, (5, 8))] :=
  have h : twoBodyEphemeris.ForgetBefore (intervalTrajectoryOps (0, 0)) 5
      = some { twoBodyEphemeris with trajectories_ := [(1, (5, 10)), (2, (5, 8))] } := by
    with_unfolding_all rfl
  ⟨h, (Ephemeris_ForgetBefore_propagates (intervalTrajectoryOps (0, 0)) twoBodyEphemeris _ 5
    h).1⟩

/-- C19: `trajectory(body)` is a lookup by body.  In every ephemeris whose `trajectories_` is
a map (keys in strictly increasing order) it returns a trajectory exactly when that trajectory
is the one stored under `body`, and it fails in `FindOrDie` exactly when no trajectory is
stored under `body`.  The loop of the constructor, one `emplace` of a new trajectory per body
of `bodies_`, builds such a map, whose keys are the bodies of `bodies_` and whose values are
the `ContinuousTrajectory` constructed from the step and the two tolerances; in that state
`trajectory(body)` returns this trajectory when `body` is one of `bodies_` and fails when it
is not. -/
theorem Ephemeris_trajectory_of_owned {K T D : Type} (ops : TrajectoryOps K T)
    (e : Ephemeris K T D) (body : Nat) :
    (List.Pairwise (fun a b => a < b) (e.trajectories_.map Prod.fst) →
        (∀ trajectory, e.trajectory body = Except.ok trajectory ↔
          (body, trajectory) ∈ e.trajectories_) ∧
        (∀ failure, e.trajectory body = Except.error failure ↔
          failure = CheckFailure.key_not_found ∧ body ∉ e.trajectories_.map Prod.fst)) ∧
      (e.trajectories_ = constructTrajectories ops e.step_ e.low_fitting_tolerance_
            e.high_fitting_tolerance_ e.bodies_ →
        List.Pairwise (fun a b => a < b) (e.trajectories_.map Prod.fst) ∧
        (∀ key, key ∈ e.trajectories_.map Prod.fst ↔ key ∈ e.bodies_) ∧
        (∀ p ∈ e.trajectories_,
          p.2 = ops.make e.step_ e.low_fitting_tolerance_ e.high_fitting_tolerance_) ∧
        e.trajectory body =
          if body ∈ e.bodies_ then
            Except.ok (ops.make e.step_ e.low_fitting_tolerance_ e.high_fitting_tolerance_)
          else Except.error CheckFailure.key_not_found) := by
  constructor
  · intro hs
    exact ⟨fun trajectory => FindOrDie_eq_ok_iff e.trajectories_ hs body trajectory,
      fun failure => FindOrDie_eq_error_iff e.trajectories_ body failure⟩
  · intro h
    have hmap := foldl_emplace_map
      (ops.make e.step_ e.low_fitting_tolerance_ e.high_fitting_tolerance_) e.bodies_ []
      (by simp) (by simp)
    have key := FindOrDie_foldl_emplace
      (ops.make e.step_ e.low_fitting_tolerance_ e.high_fitting_tolerance_) e.bodies_ []
      (fun _ => False) (fun key => ⟨fun hf => absurd hf id, fun _ => rfl⟩) body
    unfold Ephemeris.trajectory
    rw [h]
    unfold constructTrajectories
    refine ⟨hmap.1, fun key' => by simpa using hmap.2.1 key', hmap.2.2, ?_⟩
    split_ifs with hb
    · exact key.1 (Or.inl hb)
    · exact key.2 (fun hor => hor.elim hb id)

/-- The theorem `Ephemeris_trajectory_of_owned` on `twoBodyEphemeris`, whose two trajectories
differ: the body at address `2` has the trajectory covering `[1, 8)`, not the first one of the
map; and on `newTwoBodyEphemeris`, for the owned body at address `2` and for the address `5`,
which is not owned. -/
theorem Ephemeris_trajectory_of_owned_witness :
    (List.Pairwise (fun a b => a < b) (twoBodyEphemeris.trajectories_.map Prod.fst) ∧
        (2, ((1 : ℚ), (8 : ℚ))) ∈ twoBodyEphemeris.trajectories_ ∧
        twoBodyEphemeris.trajectory 2 = Except.ok ((1 : ℚ), (8 : ℚ))) ∧
      newTwoBodyEphemeris.trajectory 2 = Except.ok ((0 : ℚ), (0 : ℚ)) ∧
      newTwoBodyEphemeris.trajectory 5 = Except.error CheckFailure.key_not_found :=
  ⟨⟨by simp [twoBodyEphemeris], by simp [twoBodyEphemeris],
      (((Ephemeris_trajectory_of_owned (intervalTrajectoryOps (0, 0)) twoBodyEphemeris 2).1
        (by simp [twoBodyEphemeris])).1 (1, 8)).mpr (by simp [twoBodyEphemeris])⟩,
    ((Ephemeris_trajectory_of_owned (intervalTrajectoryOps (0, 0)) newTwoBodyEphemeris 2).2
      rfl).2.2.2.trans (by simp [newTwoBodyEphemeris, intervalTrajectoryOps]),
    ((Ephemeris_trajectory_of_owned (intervalTrajectoryOps (0, 0)) newTwoBodyEphemeris 5).2
      rfl).2.2.2.trans (by simp [newTwoBodyEphemeris])⟩

end ephemeris_claims


section kepler_real

/-- Twice the argument of a complex number and of its opposite have the same cosine. -/
theorem cos_two_arg_neg (z : ℂ) (hz : z ≠ 0) :
    Real.cos (2 * Complex.arg (-z)) = Real.cos (2 * Complex.arg z) := by
  rw [Real.cos_two_mul, Real.cos_two_mul, Complex.cos_arg hz,
    Complex.cos_arg (neg_ne_zero.mpr hz)]
  simp only [Complex.neg_re, map_neg_eq_map]
  ring

/-- Twice the argument of a complex number and of its opposite have the same sine. -/
theorem sin_two_arg_neg (z : ℂ) (hz : z ≠ 0) :
    Real.sin (2 * Complex.arg (-z)) = Real.sin (2 * Complex.arg z) := by
  rw [Real.sin_two_mul, Real.sin_two_mul, Complex.sin_arg, Complex.sin_arg, Complex.cos_arg hz,
    Complex.cos_arg (neg_ne_zero.mpr hz)]
  simp only [Complex.neg_re, Complex.neg_im, map_neg_eq_map]
  ring

/-- For eccentricity zero the eccentric anomaly is the mean anomaly, whatever the root
finder. -/
theorem TestParticleStateVectors_of_eccentricity_zero {K : Type} [LinearOrderedField K]
    (ops : OrbitOps K) (elements : KeplerianElements K) (gravitational_parameter : K)
    (h : elements.eccentricity = 0) :
    TestParticleStateVectors ops elements gravitational_parameter
      = Except.ok (EllipticStateVectors ops elements gravitational_parameter
          elements.mean_anomaly) := by
  simp [TestParticleStateVectors, h]

/-- With the real sine, cosine, square root and two-argument arc tangent, the state vectors of
a circular orbit are the same for two eccentric anomalies a full turn apart. -/
theorem EllipticStateVectors_add_two_pi (ops : OrbitOps ℝ) (elements : KeplerianElements ℝ)
    (gravitational_parameter E : ℝ)
    (hSin : ops.Sin = Real.sin) (hCos : ops.Cos = Real.cos)
    (hArcTan : ops.ArcTan = fun y x => Complex.arg ⟨x, y⟩) (hSqrt : ops.Sqrt = Real.sqrt)
    (he : elements.eccentricity = 0) :
    EllipticStateVectors ops elements gravitational_parameter (E + 2 * Real.pi)
      = EllipticStateVectors ops elements gravitational_parameter E := by
  have hhalf : (E + 2 * Real.pi) / 2 = E / 2 + Real.pi := by ring
  have hz : (⟨Real.cos (E / 2), Real.sin (E / 2)⟩ : ℂ) ≠ 0 := by
    intro h0
    have hre := congrArg Complex.re h0
    have him := congrArg Complex.im h0
    simp only [Complex.zero_re, Complex.zero_im] at hre him
    have := Real.cos_sq_add_sin_sq (E / 2)
    rw [hre, him] at this
    norm_num at this
  have hneg : (⟨-Real.cos (E / 2), -Real.sin (E / 2)⟩ : ℂ)
      = -(⟨Real.cos (E / 2), Real.sin (E / 2)⟩ : ℂ) := by
    apply Complex.ext <;> simp
  simp only [EllipticStateVectors, hSin, hCos, hArcTan, hSqrt, he, hhalf, Real.sin_add_pi,
    Real.cos_add_pi, Real.sin_add_two_pi, Real.cos_add_two_pi, add_zero, sub_zero,
    Real.sqrt_one, one_mul, hneg, cos_two_arg_neg _ hz, sin_two_arg_neg _ hz]

/-- C11: over the reals, with the real sine, cosine, square root and two-argument arc
tangent, for eccentricity `0`, a semimajor axis `a > 0` and a combined gravitational parameter
`μ > 0`, `PrimocentricStateVectors` returns a position and a velocity at `t`, and returns the
same ones at `t + 2π / sqrt(μ / a^3)`; this for every inclination, node and periapsis angle,
every rotation and every root finder. -/
theorem PrimocentricStateVectors_circular_periodic (ops : OrbitOps ℝ) (orbit : KeplerOrbit ℝ)
    (t : ℝ)
    (hSin : ops.Sin = Real.sin) (hCos : ops.Cos = Real.cos)
    (hArcTan : ops.ArcTan = fun y x => Complex.arg ⟨x, y⟩) (hSqrt : ops.Sqrt = Real.sqrt)
    (he : orbit.elements_at_epoch_.eccentricity = 0)
    (ha : 0 < orbit.elements_at_epoch_.semimajor_axis)
    (hμ : 0 < orbit.primary_gravitational_parameter_
      + orbit.secondary_gravitational_parameter_) :
    ∃ state : Vector3 ℝ × Vector3 ℝ,
      orbit.PrimocentricStateVectors ops t = Except.ok state ∧
      orbit.PrimocentricStateVectors ops
          (t + 2 * Real.pi / Real.sqrt
            ((orbit.primary_gravitational_parameter_
                + orbit.secondary_gravitational_parameter_)
              / orbit.elements_at_epoch_.semimajor_axis ^ 3))
        = Except.ok state := by
  have hn : 0 < Real.sqrt
      ((orbit.primary_gravitational_parameter_ + orbit.secondary_gravitational_parameter_)
        / orbit.elements_at_epoch_.semimajor_axis ^ 3) :=
    Real.sqrt_pos.mpr (div_pos hμ (pow_pos ha 3))
  have hM : (orbit.PrimocentricTestParticle ops
        (t + 2 * Real.pi / Real.sqrt
          ((orbit.primary_gravitational_parameter_
              + orbit.secondary_gravitational_parameter_)
            / orbit.elements_at_epoch_.semimajor_axis ^ 3))).1.mean_anomaly
      = (orbit.PrimocentricTestParticle ops t).1.mean_anomaly + 2 * Real.pi := by
    simp only [KeplerOrbit.PrimocentricTestParticle, hSqrt, Radian]
    field_simp
    ring
  generalize 2 * Real.pi / Real.sqrt
      ((orbit.primary_gravitational_parameter_ + orbit.secondary_gravitational_parameter_)
        / orbit.elements_at_epoch_.semimajor_axis ^ 3) = period at hM ⊢
  refine ⟨EllipticStateVectors ops (orbit.PrimocentricTestParticle ops t).1
    (orbit.PrimocentricTestParticle ops t).2
    (orbit.PrimocentricTestParticle ops t).1.mean_anomaly, ?_, ?_⟩
  · exact TestParticleStateVectors_of_eccentricity_zero ops
      (orbit.PrimocentricTestParticle ops t).1 (orbit.PrimocentricTestParticle ops t).2 he
  · unfold KeplerOrbit.PrimocentricStateVectors
    rw [TestParticleStateVectors_of_eccentricity_zero ops
      (orbit.PrimocentricTestParticle ops (t + period)).1
      (orbit.PrimocentricTestParticle ops (t + period)).2 he, hM]
    exact congrArg Except.ok
      (EllipticStateVectors_add_two_pi ops (orbit.PrimocentricTestParticle ops t).1
        (orbit.PrimocentricTestParticle ops t).2
        (orbit.PrimocentricTestParticle ops t).1.mean_anomaly hSin hCos hArcTan hSqrt he)

/-- The theorem `PrimocentricStateVectors_circular_periodic` on the circular orbit of
semimajor axis `1` around a primary of gravitational parameter `1`, with a massless
secondary, at `t = 0`. -/
theorem PrimocentricStateVectors_circular_periodic_witness :
    ((0 : ℝ) < 1 ∧ (0 : ℝ) < 1 + 0) ∧
      ∃ state : Vector3 ℝ × Vector3 ℝ,
        KeplerOrbit.PrimocentricStateVectors
            (⟨Real.sin, Real.cos, fun y x => Complex.arg ⟨x, y⟩, Real.sqrt, fun _ _ w => w,
              fun _ _ _ => none⟩ : OrbitOps ℝ)
            (⟨1, 0, ⟨0, 1, 0, 0, 0, 0⟩, 0⟩ : KeplerOrbit ℝ) 0 = Except.ok state ∧
        KeplerOrbit.PrimocentricStateVectors
            (⟨Real.sin, Real.cos, fun y x => Complex.arg ⟨x, y⟩, Real.sqrt, fun _ _ w => w,
              fun _ _ _ => none⟩ : OrbitOps ℝ)
            (⟨1, 0, ⟨0, 1, 0, 0, 0, 0⟩, 0⟩ : KeplerOrbit ℝ)
            (0 + 2 * Real.pi / Real.sqrt ((1 + 0) / 1 ^ 3)) = Except.ok state :=
  ⟨⟨by norm_num, by norm_num⟩,
    PrimocentricStateVectors_circular_periodic
      (⟨Real.sin, Real.cos, fun y x => Complex.arg ⟨x, y⟩, Real.sqrt, fun _ _ w => w,
        fun _ _ _ => none⟩ : OrbitOps ℝ)
      (⟨1, 0, ⟨0, 1, 0, 0, 0, 0⟩, 0⟩ : KeplerOrbit ℝ) 0 rfl rfl rfl rfl rfl
      (by norm_num) (by norm_num)⟩

end kepler_real

end physics

namespace ksp_plugin

/-! ### Properties of the iteration over a rendered trajectory -/

section interface_claims

variable {K P F G : Type} [Field K]

/-- A size below `2^31` is returned as it is. -/
theorem toInt32_of_lt (n : Nat) (h : n < 2 ^ 31) : toInt32 n = (n : Int) := by
  unfold toInt32
  omega

/-- A fetch before the end returns the segment under the iterator and advances it by one. -/
theorem FetchAndIncrement_of_lt (kWorldOrigin : physics.Vector3 K)
    (segments : List (LineSegment K)) (k : Nat) (h : k < segments.length) :
    FetchAndIncrement kWorldOrigin (some { rendered_trajectory := segments, it := k })
      = Except.ok (toXYZSegment kWorldOrigin segments[k],
          { rendered_trajectory := segments, it := k + 1 }) := by
  simp [FetchAndIncrement, Nat.ne_of_lt h, List.getElem?_eq_getElem h]

/-- Successive fetches that stay within the trajectory return its segments in order. -/
theorem fetchMany_of_le (kWorldOrigin : physics.Vector3 K) (segments : List (LineSegment K))
    (count : Nat) : ∀ k, k + count ≤ segments.length →
      fetchMany kWorldOrigin count { rendered_trajectory := segments, it := k }
        = Except.ok (((segments.drop k).take count).map (toXYZSegment kWorldOrigin),
            { rendered_trajectory := segments, it := k + count }) := by
  induction count with
  | zero => intro k _; simp [fetchMany]
  | succ count ih =>
    intro k hk
    have hlt : k < segments.length := by omega
    have hdrop : (segments.drop k).take (count + 1)
        = segments[k] :: (segments.drop (k + 1)).take count := by
      rw [List.drop_eq_getElem_cons hlt, List.take_succ_cons]
    simp only [fetchMany, FetchAndIncrement_of_lt kWorldOrigin segments k hlt,
      ih (k + 1) (by omega), hdrop, List.map_cons]
    rw [Nat.add_assoc, Nat.add_comm 1 count]

/-- C20 as stated fails: over a rendered trajectory of `n = 2^31` segments `NumberOfSegments`
does not return `n`, which no `int` holds; it returns `-2^31`. -/
theorem NumberOfSegments_of_long_trajectory :
    RenderedVesselTrajectory ((0, 0, 0) : physics.Vector3 ℚ) listRender
        (some (uniformTrajectory 2147483648)) 0 (some ()) { x := 0, y := 0, z := 0 }
      = Except.ok { rendered_trajectory := uniformTrajectory 2147483648, it := 0 } ∧
    (uniformTrajectory 2147483648).length = 2147483648 ∧
    NumberOfSegments (some { rendered_trajectory := uniformTrajectory 2147483648, it := 0 })
      = Except.ok (-2147483648) ∧
    (-2147483648 : Int) ≠ 2147483648 := by
  have hlen : (uniformTrajectory 2147483648).length = 2147483648 := by
    unfold uniformTrajectory
    exact List.length_replicate _ _
  refine ⟨?_, hlen, ?_, by norm_num⟩
  · simp only [RenderedVesselTrajectory, listRender]
  · simp only [NumberOfSegments]
    rw [hlen]
    norm_num [toInt32]

/-- C20, amended: a `LineAndIterator` freshly returned by `RenderedVesselTrajectory` holds the
trajectory rendered by the plugin, of `n` segments, with its iterator at the beginning.
`NumberOfSegments` returns `n` when `n < 2^31`.  The first `k ≤ n` calls of
`FetchAndIncrement` succeed and return the first `k` segments in order, the call after `k < n`
fetches returning the segment of index `k`; after `k ≤ n` fetches `AtEnd` returns true if and
only if `k = n`; and `FetchAndIncrement` after `n` fetches fails its check. -/
theorem iteration_protocol (kWorldOrigin : physics.Vector3 K)
    (render : P → G → F → physics.Vector3 K → List (LineSegment K))
    (plugin : Option P) (vessel_guid : G) (frame : Option F) (sun_world_position : XYZ K)
    (fresh : LineAndIterator K)
    (h : RenderedVesselTrajectory kWorldOrigin render plugin vessel_guid frame
      sun_world_position = Except.ok fresh) :
    (∃ p f, plugin = some p ∧ frame = some f ∧
        fresh.rendered_trajectory = render p vessel_guid f
          (kWorldOrigin.1 + sun_world_position.x * Metre,
            kWorldOrigin.2.1 + sun_world_position.y * Metre,
            kWorldOrigin.2.2 + sun_world_position.z * Metre)) ∧
      fresh.it = 0 ∧
      (fresh.rendered_trajectory.length < 2 ^ 31 →
        NumberOfSegments (some fresh) = Except.ok (fresh.rendered_trajectory.length : Int)) ∧
      (∀ k, k ≤ fresh.rendered_trajectory.length →
        fetchMany kWorldOrigin k fresh
          = Except.ok ((fresh.rendered_trajectory.take k).map (toXYZSegment kWorldOrigin),
              { fresh with it := k })) ∧
      (∀ k (hk : k < fresh.rendered_trajectory.length),
        FetchAndIncrement kWorldOrigin (some { fresh with it := k })
          = Except.ok (toXYZSegment kWorldOrigin fresh.rendered_trajectory[k],
              { fresh with it := k + 1 })) ∧
      (∀ k, k ≤ fresh.rendered_trajectory.length →
        AtEnd (some { fresh with it := k })
          = Except.ok (decide (k = fresh.rendered_trajectory.length))) ∧
      FetchAndIncrement kWorldOrigin
          (some { fresh with it := fresh.rendered_trajectory.length })
        = Except.error InterfaceFailure.iterator_at_end := by
  cases plugin with
  | none => simp [RenderedVesselTrajectory] at h
  | some p =>
    cases frame with
    | none => simp [RenderedVesselTrajectory] at h
    | some f =>
      simp only [RenderedVesselTrajectory, Except.ok.injEq] at h
      subst h
      refine ⟨⟨p, f, rfl, rfl, rfl⟩, rfl, ?_, ?_, ?_, ?_, ?_⟩
      · intro hlt
        simp only [NumberOfSegments]
        rw [toInt32_of_lt _ hlt]
      · intro k hk
        have := fetchMany_of_le kWorldOrigin
          (render p vessel_guid f
            (kWorldOrigin.1 + sun_world_position.x * Metre,
              kWorldOrigin.2.1 + sun_world_position.y * Metre,
              kWorldOrigin.2.2 + sun_world_position.z * Metre)) k 0 (by simpa using hk)
        simpa using this
      · intro k hk
        exact FetchAndIncrement_of_lt kWorldOrigin _ k hk
      · intro k _
        rfl
      · simp [FetchAndIncrement]

/-- The theorem `iteration_protocol` on a trajectory of two segments. -/
theorem iteration_protocol_witness :
    RenderedVesselTrajectory ((0, 0, 0) : physics.Vector3 ℚ) listRender (some twoSegments)
        0 (some ()) { x := 0, y := 0, z := 0 }
      = Except.ok { rendered_trajectory := twoSegments, it := 0 } ∧
    NumberOfSegments (some ({ rendered_trajectory := twoSegments, it := 0 } :
        LineAndIterator ℚ)) = Except.ok 2 ∧
    FetchAndIncrement ((0, 0, 0) : physics.Vector3 ℚ)
        (some { rendered_trajectory := twoSegments, it := 2 })
      = Except.error InterfaceFailure.iterator_at_end :=
  have h : RenderedVesselTrajectory ((0, 0, 0) : physics.Vector3 ℚ) listRender
      (some twoSegments) 0 (some ()) { x := 0, y := 0, z := 0 }
      = Except.ok { rendered_trajectory := twoSegments, it := 0 } := rfl
  ⟨h,
    (iteration_protocol (0, 0, 0) listRender (some twoSegments) 0 (some ())
      { x := 0, y := 0, z := 0 } _ h).2.2.1 (by decide),
    (iteration_protocol (0, 0, 0) listRender (some twoSegments) 0 (some ())
      { x := 0, y := 0, z := 0 } _ h).2.2.2.2.2.2⟩

end interface_claims

end ksp_plugin

namespace numerics

/-! ### The cost of the search loop and the remainder after the last breakpoint -/

section fit_more

set_option maxRecDepth 1000000

variable {S A V D H E : Type} [LinearOrder E]

/-- The loop evaluates `LInfinityError` at most `⌈log₂ (upper - lower)⌉` times. -/
theorem bisectLoop_log_length (ops : SplineOps S A V D H E) (tol : E) (data : List S)
    (k : Nat) : ∀ lower upper,
      (bisectLoop ops tol data k lower upper).2.length ≤ Nat.clog 2 (upper - lower) := by
  induction k with
  | zero => intro lower upper; simp [bisectLoop]
  | succ k ih =>
    intro lower upper
    simp only [bisectLoop]
    split_ifs with hm hf
    · exact Nat.zero_le _
    · have hd : 2 ≤ upper - lower := by omega
      rw [Nat.clog_of_two_le (by decide) hd]
      have hrec := ih (lower + (upper - lower) / 2) upper
      have heq : upper - (lower + (upper - lower) / 2) = (upper - lower + 2 - 1) / 2 := by
        omega
      rw [heq] at hrec
      simpa using hrec
    · have hd : 2 ≤ upper - lower := by omega
      rw [Nat.clog_of_two_le (by decide) hd]
      have hrec := ih lower (lower + (upper - lower) / 2)
      have hle : lower + (upper - lower) / 2 - lower ≤ (upper - lower + 2 - 1) / 2 := by
        omega
      have := le_trans hrec (Nat.clog_mono_right 2 hle)
      simpa using this

/-- One iteration of the loop from a state with `first ≤ lower < upper ≤ last`: it breaks, or
it evaluates the error on `[lower, middle)` and goes on from a state that satisfies the same
bounds and has a smaller `upper - lower`. -/
theorem bisectLoop_step (ops : SplineOps S A V D H E) (tol : E) (data : List S)
    (first last k lower upper : Nat) (h1 : first ≤ lower) (h2 : lower < upper)
    (h3 : upper ≤ last) :
    (lower + (upper - lower) / 2 = lower ∧
        bisectLoop ops tol data (k + 1) lower upper = (lower, [])) ∨
      ∃ lower' upper', first ≤ lower' ∧ lower' < upper' ∧ upper' ≤ last ∧
        upper' - lower' < upper - lower ∧
        bisectLoop ops tol data (k + 1) lower upper
          = ((bisectLoop ops tol data k lower' upper').1,
              (lower, lower + (upper - lower) / 2)
                :: (bisectLoop ops tol data k lower' upper').2) := by
  by_cases hm : lower + (upper - lower) / 2 = lower
  · left
    exact ⟨hm, by simp [bisectLoop, hm]⟩
  · right
    by_cases hf : fitsTolerance ops tol data lower (lower + (upper - lower) / 2) = true
    · refine ⟨lower + (upper - lower) / 2, upper, by omega, by omega, h3, by omega, ?_⟩
      simp [bisectLoop, hm, hf]
    · refine ⟨lower, lower + (upper - lower) / 2, h1, by omega, by omega, by omega, ?_⟩
      simp [bisectLoop, hm, hf]

/-- The empty list is returned only for fewer than three samples or for a range that fits. -/
theorem FitHermiteSpline_eq_nil (ops : SplineOps S A V D H E) (tol : E) (data : List S)
    (fuel first last : Nat) (h : FitHermiteSpline ops tol data fuel first last = some []) :
    last - first < 3 ∨ fitsTolerance ops tol data first last = true := by
  cases fuel with
  | zero => simp [FitHermiteSpline, FitHermiteSplineLogged] at h
  | succ fuel =>
    rw [FitHermiteSpline_succ] at h
    split_ifs at h with h3 hf
    · exact Or.inl h3
    · exact Or.inr hf
    · simp at h

/-- C22: on a range of `n ≥ 3` samples the loop of `FitHermiteSpline` keeps
`begin ≤ lower < upper ≤ end` from one iteration to the next while `upper - lower` decreases,
gives the same result for every iteration bound of at least `n` (it terminates), evaluates
`LInfinityError` at most `⌈log₂ n⌉` times, and commits a `lower` with `begin ≤ lower < end`;
this whether or not the whole range fits. -/
theorem bisectLoop_cost (ops : SplineOps S A V D H E) (tol : E) (data : List S)
    (first last : Nat) (h3 : first + 3 ≤ last) :
    (∀ k lower upper, first ≤ lower → lower < upper → upper ≤ last →
        (lower + (upper - lower) / 2 = lower ∧
            bisectLoop ops tol data (k + 1) lower upper = (lower, [])) ∨
          ∃ lower' upper', first ≤ lower' ∧ lower' < upper' ∧ upper' ≤ last ∧
            upper' - lower' < upper - lower ∧
            bisectLoop ops tol data (k + 1) lower upper
              = ((bisectLoop ops tol data k lower' upper').1,
                  (lower, lower + (upper - lower) / 2)
                    :: (bisectLoop ops tol data k lower' upper').2)) ∧
      (∀ k, last - first ≤ k →
        bisectLoop ops tol data k first last
          = bisectLoop ops tol data (last - first) first last) ∧
      (bisectLoop ops tol data (last - first) first last).2.length
        ≤ Nat.clog 2 (last - first) ∧
      first ≤ (bisectLoop ops tol data (last - first) first last).1 ∧
      (bisectLoop ops tol data (last - first) first last).1 < last := by
  refine ⟨fun k lower upper h1 h2 h4 => bisectLoop_step ops tol data first last k lower upper
      h1 h2 h4, ?_, bisectLoop_log_length ops tol data _ first last, ?_⟩
  · intro k hk
    exact bisectLoop_bound ops tol data k (last - first) first last hk (le_refl _)
  · exact bisectLoop_lower_bounds ops tol data (last - first) first last (by omega)

/-- The theorem `bisectLoop_cost` on the eight samples `stepSamples`: at most `3` evaluations
in the loop, which commits the breakpoint `7`. -/
theorem bisectLoop_cost_witness :
    0 + 3 ≤ 8 ∧
      (bisectLoop (rationalOps 0) (1 / 2) stepSamples (8 - 0) 0 8).2.length
        ≤ Nat.clog 2 (8 - 0) ∧
      (bisectLoop (rationalOps 0) (1 / 2) stepSamples (8 - 0) 0 8).2 = [(0, 4), (4, 6), (6, 7)] ∧
      Nat.clog 2 (8 - 0) = 3 :=
  ⟨by decide,
    (bisectLoop_cost (rationalOps 0) (1 / 2) stepSamples 0 8 (by decide)).2.2.1,
    by with_unfolding_all decide, by with_unfolding_all decide⟩

/-- C23: whenever `FitHermiteSpline` returns a non-empty list, the range from the last
breakpoint to `samples.end()` has fewer than three samples or is fitted within the tolerance
by one Hermite cubic. -/
theorem FitHermiteSpline_remainder (ops : SplineOps S A V D H E) (tol : E) (data : List S)
    (fuel first last : Nat) (l : List Nat)
    (h : FitHermiteSpline ops tol data fuel first last = some l) (hne : l ≠ []) :
    last - l.getLast hne < 3 ∨ fitsTolerance ops tol data (l.getLast hne) last = true := by
  induction fuel generalizing first l with
  | zero => simp [FitHermiteSpline, FitHermiteSplineLogged] at h
  | succ fuel ih =>
    rw [FitHermiteSpline_succ] at h
    split_ifs at h with h3 hf
    · cases h; exact absurd rfl hne
    · cases h; exact absurd rfl hne
    · simp only [Option.map_eq_some'] at h
      obtain ⟨tail, htail, rfl⟩ := h
      by_cases ht : tail = []
      · subst ht
        simpa using FitHermiteSpline_eq_nil ops tol data fuel _ last htail
      · rw [List.getLast_cons ht]
        exact ih _ tail htail ht

/-- The theorem `FitHermiteSpline_remainder` on `kinkSamples` with tolerance `3/2`: after the
last breakpoint `15` one sample is left. -/
theorem FitHermiteSpline_remainder_witness :
    FitHermiteSpline (rationalOps 0) (3 / 2) kinkSamples 3 0 16 = some [11, 15] ∧
      (16 - [11, 15].getLast (List.cons_ne_nil 11 [15]) < 3 ∨
        fitsTolerance (rationalOps 0) (3 / 2) kinkSamples
          ([11, 15].getLast (List.cons_ne_nil 11 [15])) 16 = true) :=
  ⟨by with_unfolding_all decide,
    FitHermiteSpline_remainder (rationalOps 0) (3 / 2) kinkSamples 3 0 16 [11, 15]
      (by with_unfolding_all decide) (List.cons_ne_nil 11 [15])⟩

end fit_more

end numerics

namespace physics

/-! ### The bracket of the Kepler equation and the barycentric orbit -/

section kepler_more

/-- C21, evaluated on the code: for the eccentricity `1/2` and the mean anomaly `1/2 - π/2`,
over the reals, the Kepler equation is zero at the lower end `M - e` of the bracket, so the
precondition of `Bisect` does not hold; and `TestParticleStateVectors` does call `Bisect`
with that function and that bracket. -/
theorem Bisect_called_outside_precondition (Cos : ℝ → ℝ) (ArcTan : ℝ → ℝ → ℝ) (Sqrt : ℝ → ℝ)
    (Rotation : ℝ → Vector3 ℝ → Vector3 ℝ → Vector3 ℝ)
    (Bisect : (ℝ → ℝ) → ℝ → ℝ → Option ℝ) (a i Ω ω μ : ℝ) :
    kepler_equation (⟨Real.sin, Cos, ArcTan, Sqrt, Rotation, Bisect⟩ : OrbitOps ℝ) (1 / 2)
        (1 / 2 - Real.pi / 2) (1 / 2 - Real.pi / 2 - 1 / 2 * Radian) = 0 ∧
      ¬ numerics.BisectPrecondition
        (kepler_equation (⟨Real.sin, Cos, ArcTan, Sqrt, Rotation, Bisect⟩ : OrbitOps ℝ) (1 / 2)
          (1 / 2 - Real.pi / 2))
        (1 / 2 - Real.pi / 2 - 1 / 2 * Radian) (1 / 2 - Real.pi / 2 + 1 / 2 * Radian) ∧
      TestParticleStateVectors (⟨Real.sin, Cos, ArcTan, Sqrt, Rotation, Bisect⟩ : OrbitOps ℝ)
          ⟨1 / 2, a, i, Ω, ω, 1 / 2 - Real.pi / 2⟩ μ
        = match Bisect
            (kepler_equation (⟨Real.sin, Cos, ArcTan, Sqrt, Rotation, Bisect⟩ : OrbitOps ℝ)
              (1 / 2) (1 / 2 - Real.pi / 2))
            (1 / 2 - Real.pi / 2 - 1 / 2 * Radian) (1 / 2 - Real.pi / 2 + 1 / 2 * Radian) with
          | some E =>
              Except.ok (EllipticStateVectors
                (⟨Real.sin, Cos, ArcTan, Sqrt, Rotation, Bisect⟩ : OrbitOps ℝ)
                ⟨1 / 2, a, i, Ω, ω, 1 / 2 - Real.pi / 2⟩ μ E)
          | none => Except.error Fatal.bisect_precondition := by
  have hzero : kepler_equation (⟨Real.sin, Cos, ArcTan, Sqrt, Rotation, Bisect⟩ : OrbitOps ℝ)
      (1 / 2) (1 / 2 - Real.pi / 2) (1 / 2 - Real.pi / 2 - 1 / 2 * Radian) = 0 := by
    have harg : (1 / 2 - Real.pi / 2 - 1 / 2 * (1 : ℝ)) = -(Real.pi / 2) := by ring
    simp only [kepler_equation, Radian, harg, Real.sin_neg, Real.sin_pi_div_two]
    ring
  refine ⟨hzero, fun hpre => hpre.1 hzero, ?_⟩
  have h1 : ((1 : ℝ) / 2 < 1) := by norm_num
  have h2 : ¬ ((1 : ℝ) / 2 = 0) := by norm_num
  simp only [TestParticleStateVectors, h1, h2, if_true, if_false]
  cases Bisect
      (kepler_equation (⟨Real.sin, Cos, ArcTan, Sqrt, Rotation, Bisect⟩ : OrbitOps ℝ)
        (1 / 2) (1 / 2 - Real.pi / 2))
      (1 / 2 - Real.pi / 2 - 1 / 2 * Radian) (1 / 2 - Real.pi / 2 + 1 / 2 * Radian) <;> rfl

/-- When two sets of elements have the same eccentricity and mean anomaly, and their state
vectors are related by `f` for every eccentric anomaly, the results of
`TestParticleStateVectors` are related by `f`, failures included. -/
theorem TestParticleStateVectors_map {K : Type} [LinearOrderedField K] (ops : OrbitOps K)
    (elements elements' : KeplerianElements K) (μ μ' : K)
    (f : Vector3 K × Vector3 K → Vector3 K × Vector3 K)
    (he : elements'.eccentricity = elements.eccentricity)
    (hM : elements'.mean_anomaly = elements.mean_anomaly)
    (hE : ∀ E, EllipticStateVectors ops elements' μ' E
      = f (EllipticStateVectors ops elements μ E)) :
    TestParticleStateVectors ops elements' μ'
      = Except.map f (TestParticleStateVectors ops elements μ) := by
  unfold TestParticleStateVectors
  rw [he, hM]
  by_cases h1 : elements.eccentricity < 1
  · simp only [h1, if_true]
    by_cases h0 : elements.eccentricity = 0
    · simp only [h0, if_true, hE, Except.map]
    · simp only [h0, if_false]
      cases ops.Bisect (kepler_equation ops elements.eccentricity elements.mean_anomaly)
          (elements.mean_anomaly - elements.eccentricity * Radian)
          (elements.mean_anomaly + elements.eccentricity * Radian) with
      | none => rfl
      | some E => simp only [hE, Except.map]
  · simp only [h1, if_false]
    split_ifs <;> rfl

/-- With the real square root, scaling the semimajor axis by `k > 0` and the product
`μ a` by `k^4` scales the position and the velocity by `k`. -/
theorem EllipticStateVectors_scaled (ops : OrbitOps ℝ) (elements elements' : KeplerianElements ℝ)
    (μ μ' k E : ℝ) (hSqrt : ops.Sqrt = Real.sqrt) (hk : 0 < k)
    (he : elements'.eccentricity = elements.eccentricity)
    (hi : elements'.inclination = elements.inclination)
    (hΩ : elements'.longitude_of_ascending_node = elements.longitude_of_ascending_node)
    (hω : elements'.argument_of_periapsis = elements.argument_of_periapsis)
    (ha : elements'.semimajor_axis = k * elements.semimajor_axis)
    (hμ : μ' * elements'.semimajor_axis = k ^ 4 * (μ * elements.semimajor_axis)) :
    EllipticStateVectors ops elements' μ' E
      = (scale k (EllipticStateVectors ops elements μ E).1,
          scale k (EllipticStateVectors ops elements μ E).2) := by
  have hsqrt : Real.sqrt (k ^ 4 * (μ * elements.semimajor_axis))
      = k ^ 2 * Real.sqrt (μ * elements.semimajor_axis) := by
    have h4 : k ^ 4 = (k ^ 2) ^ 2 := by ring
    rw [Real.sqrt_mul (by positivity), h4, Real.sqrt_sq (by positivity)]
  have hk' : k ≠ 0 := ne_of_gt hk
  have hcoef : Real.sqrt (μ' * elements'.semimajor_axis)
        / (elements'.semimajor_axis * (1 - elements.eccentricity * ops.Cos E))
      = k * (Real.sqrt (μ * elements.semimajor_axis)
          / (elements.semimajor_axis * (1 - elements.eccentricity * ops.Cos E))) := by
    rw [hμ, hsqrt, ha]
    by_cases hd : elements.semimajor_axis * (1 - elements.eccentricity * ops.Cos E) = 0
    · have hd' : k * elements.semimajor_axis * (1 - elements.eccentricity * ops.Cos E) = 0 := by
        rw [mul_assoc, hd, mul_zero]
      rw [hd, hd']
      simp
    · obtain ⟨ha0, hc0⟩ := mul_ne_zero_iff.mp hd
      field_simp
      ring
  have hdist : elements'.semimajor_axis * (1 - elements.eccentricity * ops.Cos E)
      = k * (elements.semimajor_axis * (1 - elements.eccentricity * ops.Cos E)) := by
    rw [ha]
    ring
  simp only [EllipticStateVectors, he, hi, hΩ, hω, hSqrt]
  rw [hcoef, hdist]
  simp only [scale, mul_assoc]

/-- C24: over the reals, for `μ1 > 0`, `μ2 ≥ 0` and `a > 0`, `BarycentricStateVectors(t)` is
`PrimocentricStateVectors(t)` with the position and the velocity multiplied by
`μ1 / (μ1 + μ2)`, for every eccentricity and every instant `t` (and fails as
`PrimocentricStateVectors(t)` does when that one fails); the two coincide when `μ2 = 0`, which
is what the constructor sets for a massless secondary. -/
theorem BarycentricStateVectors_scaled (ops : OrbitOps ℝ) (orbit : KeplerOrbit ℝ) (t : ℝ)
    (hSqrt : ops.Sqrt = Real.sqrt)
    (h1 : 0 < orbit.primary_gravitational_parameter_)
    (h2 : 0 ≤ orbit.secondary_gravitational_parameter_)
    (ha : 0 < orbit.elements_at_epoch_.semimajor_axis) :
    orbit.BarycentricStateVectors ops t
        = Except.map
          (fun state =>
            (scale (orbit.primary_gravitational_parameter_
                / (orbit.primary_gravitational_parameter_
                  + orbit.secondary_gravitational_parameter_)) state.1,
              scale (orbit.primary_gravitational_parameter_
                / (orbit.primary_gravitational_parameter_
                  + orbit.secondary_gravitational_parameter_)) state.2))
          (orbit.PrimocentricStateVectors ops t) ∧
      (orbit.secondary_gravitational_parameter_ = 0 →
        orbit.BarycentricStateVectors ops t = orbit.PrimocentricStateVectors ops t) ∧
      (∀ (primary : MassiveBody ℝ) (epoch : ℝ) (elements : KeplerianElements ℝ),
        (KeplerOrbit.make primary Body.massless epoch elements).secondary_gravitational_parameter_
          = 0) := by
  have hsum : 0 < orbit.primary_gravitational_parameter_
      + orbit.secondary_gravitational_parameter_ := by linarith
  have hμ1 := ne_of_gt h1
  have hs := ne_of_gt hsum
  have ha' := ne_of_gt ha
  have hk : 0 < orbit.primary_gravitational_parameter_
      / (orbit.primary_gravitational_parameter_ + orbit.secondary_gravitational_parameter_) :=
    div_pos h1 hsum
  have key : orbit.primary_gravitational_parameter_ ^ 3
        / (orbit.primary_gravitational_parameter_
            + orbit.secondary_gravitational_parameter_) ^ 2
        / (orbit.elements_at_epoch_.semimajor_axis * orbit.primary_gravitational_parameter_
            / (orbit.primary_gravitational_parameter_
              + orbit.secondary_gravitational_parameter_)) ^ 3
      = (orbit.primary_gravitational_parameter_ + orbit.secondary_gravitational_parameter_)
          / orbit.elements_at_epoch_.semimajor_axis ^ 3 := by
    field_simp
    ring
  have hM : (orbit.BarycentricTestParticle ops t).1.mean_anomaly
      = (orbit.PrimocentricTestParticle ops t).1.mean_anomaly := by
    simp only [KeplerOrbit.BarycentricTestParticle, KeplerOrbit.PrimocentricTestParticle]
    rw [key]
  have hax : (orbit.BarycentricTestParticle ops t).1.semimajor_axis
      = orbit.primary_gravitational_parameter_
          / (orbit.primary_gravitational_parameter_ + orbit.secondary_gravitational_parameter_)
        * (orbit.PrimocentricTestParticle ops t).1.semimajor_axis := by
    simp only [KeplerOrbit.BarycentricTestParticle, KeplerOrbit.PrimocentricTestParticle]
    ring
  have hprod : (orbit.BarycentricTestParticle ops t).2
        * (orbit.BarycentricTestParticle ops t).1.semimajor_axis
      = (orbit.primary_gravitational_parameter_
          / (orbit.primary_gravitational_parameter_
            + orbit.secondary_gravitational_parameter_)) ^ 4
        * ((orbit.PrimocentricTestParticle ops t).2
          * (orbit.PrimocentricTestParticle ops t).1.semimajor_axis) := by
    simp only [KeplerOrbit.BarycentricTestParticle, KeplerOrbit.PrimocentricTestParticle]
    field_simp
    ring
  have hmain : orbit.BarycentricStateVectors ops t
      = Except.map
        (fun state =>
          (scale (orbit.primary_gravitational_parameter_
              / (orbit.primary_gravitational_parameter_
                + orbit.secondary_gravitational_parameter_)) state.1,
            scale (orbit.primary_gravitational_parameter_
              / (orbit.primary_gravitational_parameter_
                + orbit.secondary_gravitational_parameter_)) state.2))
        (orbit.PrimocentricStateVectors ops t) := by
    unfold KeplerOrbit.BarycentricStateVectors KeplerOrbit.PrimocentricStateVectors
    exact TestParticleStateVectors_map ops (orbit.PrimocentricTestParticle ops t).1
      (orbit.BarycentricTestParticle ops t).1 (orbit.PrimocentricTestParticle ops t).2
      (orbit.BarycentricTestParticle ops t).2 _ rfl hM
      (fun E => EllipticStateVectors_scaled ops (orbit.PrimocentricTestParticle ops t).1
        (orbit.BarycentricTestParticle ops t).1 (orbit.PrimocentricTestParticle ops t).2
        (orbit.BarycentricTestParticle ops t).2 _ E hSqrt hk rfl rfl rfl rfl hax hprod)
  refine ⟨hmain, ?_, ?_⟩
  · intro h0
    rw [hmain, h0, add_zero, div_self hμ1]
    cases orbit.PrimocentricStateVectors ops t with
    | error failure => rfl
    | ok state => simp [Except.map, scale]
  · intro primary epoch elements
    simp [KeplerOrbit.make, Body.is_massless]

/-- The theorem `BarycentricStateVectors_scaled` on the circular orbit of semimajor axis `3`
around a primary of gravitational parameter `2`, with a secondary of gravitational parameter
`1`, at `t = 0`: the scale is `2 / (2 + 1)`. -/
theorem BarycentricStateVectors_scaled_witness :
    ((0 : ℝ) < 2 ∧ (0 : ℝ) ≤ 1 ∧ (0 : ℝ) < 3) ∧
      KeplerOrbit.BarycentricStateVectors
          (⟨Real.sin, Real.cos, fun y x => Complex.arg ⟨x, y⟩, Real.sqrt, fun _ _ w => w,
            fun _ _ _ => none⟩ : OrbitOps ℝ)
          (⟨2, 1, ⟨0, 3, 0, 0, 0, 0⟩, 0⟩ : KeplerOrbit ℝ) 0
        = Except.map
          (fun state => (scale ((2 : ℝ) / (2 + 1)) state.1, scale ((2 : ℝ) / (2 + 1)) state.2))
          (KeplerOrbit.PrimocentricStateVectors
            (⟨Real.sin, Real.cos, fun y x => Complex.arg ⟨x, y⟩, Real.sqrt, fun _ _ w => w,
              fun _ _ _ => none⟩ : OrbitOps ℝ)
            (⟨2, 1, ⟨0, 3, 0, 0, 0, 0⟩, 0⟩ : KeplerOrbit ℝ) 0) :=
  ⟨⟨by norm_num, by norm_num, by norm_num⟩,
    (BarycentricStateVectors_scaled
      (⟨Real.sin, Real.cos, fun y x => Complex.arg ⟨x, y⟩, Real.sqrt, fun _ _ w => w,
        fun _ _ _ => none⟩ : OrbitOps ℝ)
      (⟨2, 1, ⟨0, 3, 0, 0, 0, 0⟩, 0⟩ : KeplerOrbit ℝ) 0 rfl (by norm_num) (by norm_num)
      (by norm_num)).1⟩

end kepler_more

end physics

namespace ksp_plugin

/-! ### Properties of `PileUp::AdvanceTime` -/

section pile_up_claims

variable {K D Tr E V FP AP : Type} [LinearOrderedField K]

/-- What the `if` statement on the intrinsic force leaves: the calls made, the flag, and the
ephemeris and the trajectory, which are the ones the flows called have produced. -/
theorem PileUp.flow_spec (ops : PileUpOps K D Tr E V FP AP) (p : PileUp K D Tr) (ephemeris : E)
    (t : K) (fixed_step_parameters : FP) (adaptive_step_parameters : AP) (ephemeris' : E)
    (psychohistory : Tr) (flag : Bool) (calls : List (EphemerisCall K))
    (h : p.flow ops ephemeris t fixed_step_parameters adaptive_step_parameters
      = some (ephemeris', psychohistory, flag, calls)) :
    ((∃ c ∈ calls, c.isFixedStep = true) ↔ p.intrinsic_force_ = (0, 0, 0)) ∧
      (p.intrinsic_force_ ≠ (0, 0, 0) →
        calls = [EphemerisCall.FlowWithAdaptiveStep (fun _ => p.acceleration) t]) ∧
      (flag = false ↔
        p.intrinsic_force_ = (0, 0, 0) ∧
          ops.last_time
              (ops.FlowWithFixedStep ephemeris (p.authoritative ops) t
                fixed_step_parameters).2 < t) ∧
      (p.intrinsic_force_ ≠ (0, 0, 0) →
        (ephemeris', psychohistory) =
          ops.FlowWithAdaptiveStep ephemeris (p.authoritative ops) (fun _ => p.acceleration) t
            adaptive_step_parameters) ∧
      (p.intrinsic_force_ = (0, 0, 0) →
        ¬ ops.last_time
            (ops.FlowWithFixedStep ephemeris (p.authoritative ops) t
              fixed_step_parameters).2 < t →
        calls = [EphemerisCall.FlowWithFixedStep t] ∧
          (ephemeris', psychohistory) =
            ops.FlowWithFixedStep ephemeris (p.authoritative ops) t fixed_step_parameters) ∧
      (p.intrinsic_force_ = (0, 0, 0) →
        ops.last_time
            (ops.FlowWithFixedStep ephemeris (p.authoritative ops) t
              fixed_step_parameters).2 < t →
        calls = [EphemerisCall.FlowWithFixedStep t,
            EphemerisCall.FlowWithAdaptiveStep ops.NoIntrinsicAcceleration t] ∧
          ephemeris' =
            (ops.FlowWithAdaptiveStep
              (ops.FlowWithFixedStep ephemeris (p.authoritative ops) t fixed_step_parameters).1
              (ops.FlowWithFixedStep ephemeris (p.authoritative ops) t fixed_step_parameters).2
              ops.NoIntrinsicAcceleration t adaptive_step_parameters).1 ∧
          ∃ prolongation,
            ops.Append ops.empty
                (ops.last_time
                  (ops.FlowWithFixedStep ephemeris (p.authoritative ops) t
                    fixed_step_parameters).2)
                (ops.last_degrees_of_freedom
                  (ops.FlowWithFixedStep ephemeris (p.authoritative ops) t
                    fixed_step_parameters).2) = some prolongation ∧
              ops.Append
                (ops.FlowWithAdaptiveStep
                  (ops.FlowWithFixedStep ephemeris (p.authoritative ops) t
                    fixed_step_parameters).1
                  (ops.FlowWithFixedStep ephemeris (p.authoritative ops) t
                    fixed_step_parameters).2
                  ops.NoIntrinsicAcceleration t adaptive_step_parameters).2
                (ops.last_time prolongation) (ops.last_degrees_of_freedom prolongation)
                = some psychohistory) := by
  unfold PileUp.flow at h
  by_cases hz : p.intrinsic_force_ = (0, 0, 0)
  · simp only [hz, if_true] at h
    by_cases hlt : ops.last_time
        (ops.FlowWithFixedStep ephemeris (p.authoritative ops) t fixed_step_parameters).2 < t
    · simp only [hlt, if_true] at h
      cases hA : ops.Append ops.empty
          (ops.last_time
            (ops.FlowWithFixedStep ephemeris (p.authoritative ops) t fixed_step_parameters).2)
          (ops.last_degrees_of_freedom
            (ops.FlowWithFixedStep ephemeris (p.authoritative ops) t
              fixed_step_parameters).2) with
      | none => rw [hA] at h; cases h
      | some prolongation =>
        rw [hA] at h
        simp only at h
        split at h
        · cases h
        · rename_i appended hB
          simp only [Option.some.injEq, Prod.mk.injEq] at h
          obtain ⟨rfl, rfl, rfl, rfl⟩ := h
          refine ⟨⟨fun _ => hz, fun _ => ⟨_, List.mem_cons_self _ _, rfl⟩⟩,
            fun hne => absurd hz hne, ⟨fun _ => ⟨hz, hlt⟩, fun _ => rfl⟩,
            fun hne => absurd hz hne, fun _ hn => absurd hlt hn,
            fun _ _ => ⟨rfl, rfl, prolongation, rfl, hB⟩⟩
    · simp only [hlt, if_false, Option.some.injEq, Prod.mk.injEq] at h
      obtain ⟨rfl, rfl, rfl, rfl⟩ := h
      refine ⟨⟨fun _ => hz, fun _ => ⟨_, List.mem_cons_self _ _, rfl⟩⟩,
        fun hne => absurd hz hne, ⟨fun hf => (by cases hf), fun hc => absurd hc.2 hlt⟩,
        fun hne => absurd hz hne, fun _ _ => ⟨rfl, rfl⟩, fun _ hl => absurd hl hlt⟩
  · simp only [hz, if_false, Option.some.injEq, Prod.mk.injEq] at h
    obtain ⟨rfl, rfl, rfl, rfl⟩ := h
    refine ⟨⟨?_, fun hc => absurd hc hz⟩, fun _ => rfl,
      ⟨fun hf => (by cases hf), fun hc => absurd hc.1 hz⟩,
      fun _ => rfl, fun hc => absurd hc hz, fun hc => absurd hc hz⟩
    rintro ⟨c, hc, hfixed⟩
    simp only [List.mem_singleton] at hc
    subst hc
    cases hfixed

/-- C25: when `AdvanceTime` returns, `FlowWithFixedStep` has been called if and only if
`intrinsic_force_` is the zero vector; otherwise the only call is `FlowWithAdaptiveStep` with
the constant acceleration `intrinsic_force_ / mass_`; and `psychohistory_is_history_` is false
if and only if the intrinsic force is zero and the fixed-step flow left
`psychohistory_.last().time()` strictly before `t`.  The calls are the ones that produce the
result: with a nonzero force the ephemeris and `psychohistory_` on return are those that
`FlowWithAdaptiveStep` gives on the authoritative trajectory; with a zero force and a
fixed-step flow that reaches `t` they are those that `FlowWithFixedStep` gives, the only call;
with a zero force and a fixed-step flow that stops before `t` the calls are the fixed-step flow
followed by the adaptive one on its result, the ephemeris is the one the adaptive flow leaves,
and `psychohistory_` is the trajectory the adaptive flow leaves with the last point of
`prolongation`, the end of the fixed-step flow, appended to it. -/
theorem AdvanceTime_flow_and_flag (ops : PileUpOps K D Tr E V FP AP) (p p' : PileUp K D Tr)
    (ephemeris ephemeris' : E) (vessels vessels' : V) (t : K) (fixed_step_parameters : FP)
    (adaptive_step_parameters : AP) (calls : List (EphemerisCall K))
    (h : p.AdvanceTime ops ephemeris vessels t fixed_step_parameters adaptive_step_parameters
      = some (p', ephemeris', vessels', calls)) :
    ((∃ c ∈ calls, c.isFixedStep = true) ↔ p.intrinsic_force_ = (0, 0, 0)) ∧
      (p.intrinsic_force_ ≠ (0, 0, 0) →
        calls = [EphemerisCall.FlowWithAdaptiveStep (fun _ => p.acceleration) t]) ∧
      (p'.psychohistory_is_history_ = false ↔
        p.intrinsic_force_ = (0, 0, 0) ∧
          ops.last_time
              (ops.FlowWithFixedStep ephemeris (p.authoritative ops) t
                fixed_step_parameters).2 < t) ∧
      (p.intrinsic_force_ ≠ (0, 0, 0) →
        (ephemeris', p'.psychohistory_) =
          ops.FlowWithAdaptiveStep ephemeris (p.authoritative ops) (fun _ => p.acceleration) t
            adaptive_step_parameters) ∧
      (p.intrinsic_force_ = (0, 0, 0) →
        ¬ ops.last_time
            (ops.FlowWithFixedStep ephemeris (p.authoritative ops) t
              fixed_step_parameters).2 < t →
        calls = [EphemerisCall.FlowWithFixedStep t] ∧
          (ephemeris', p'.psychohistory_) =
            ops.FlowWithFixedStep ephemeris (p.authoritative ops) t fixed_step_parameters) ∧
      (p.intrinsic_force_ = (0, 0, 0) →
        ops.last_time
            (ops.FlowWithFixedStep ephemeris (p.authoritative ops) t
              fixed_step_parameters).2 < t →
        calls = [EphemerisCall.FlowWithFixedStep t,
            EphemerisCall.FlowWithAdaptiveStep ops.NoIntrinsicAcceleration t] ∧
          ephemeris' =
            (ops.FlowWithAdaptiveStep
              (ops.FlowWithFixedStep ephemeris (p.authoritative ops) t fixed_step_parameters).1
              (ops.FlowWithFixedStep ephemeris (p.authoritative ops) t fixed_step_parameters).2
              ops.NoIntrinsicAcceleration t adaptive_step_parameters).1 ∧
          ∃ prolongation,
            ops.Append ops.empty
                (ops.last_time
                  (ops.FlowWithFixedStep ephemeris (p.authoritative ops) t
                    fixed_step_parameters).2)
                (ops.last_degrees_of_freedom
                  (ops.FlowWithFixedStep ephemeris (p.authoritative ops) t
                    fixed_step_parameters).2) = some prolongation ∧
              ops.Append
                (ops.FlowWithAdaptiveStep
                  (ops.FlowWithFixedStep ephemeris (p.authoritative ops) t
                    fixed_step_parameters).1
                  (ops.FlowWithFixedStep ephemeris (p.authoritative ops) t
                    fixed_step_parameters).2
                  ops.NoIntrinsicAcceleration t adaptive_step_parameters).2
                (ops.last_time prolongation) (ops.last_degrees_of_freedom prolongation)
                = some p'.psychohistory_) := by
  unfold PileUp.AdvanceTime at h
  cases hflow : p.flow ops ephemeris t fixed_step_parameters adaptive_step_parameters with
  | none => rw [hflow] at h; cases h
  | some r =>
    obtain ⟨e1, tr, flag, calls1⟩ := r
    rw [hflow] at h
    simp only at h
    split at h
    · cases h
    · simp only [Option.some.injEq, Prod.mk.injEq] at h
      obtain ⟨rfl, rfl, _, rfl⟩ := h
      exact PileUp.flow_spec ops p ephemeris t fixed_step_parameters adaptive_step_parameters
        e1 tr flag calls1 hflow

/-- The theorem `AdvanceTime_flow_and_flag` on three calls.  The pile-up `coastingPileUp`
advanced to `t = 2` with fixed steps of `1`: the fixed-step flow reaches `2`, it is the only
call and its trajectory is the result.  The pile-up `thrustingPileUp` advanced to `t = 5/2`:
the only call is the adaptive flow with the acceleration `(1, 0, 0)`, and its trajectory is the
result.  The pile-up `coastingPileUp` advanced to `t = 5/2` with fixed steps of `1`: the
fixed-step flow stops at `2`, the adaptive flow is called, and the last point is not
authoritative. -/
theorem AdvanceTime_flow_and_flag_witness :
    (PileUp.AdvanceTime listPileUpOps coastingPileUp () [] 2 1 ()
        = some
          ({ coastingPileUp with
              psychohistory_ := [(0, 5), (1, 5), (2, 5)]
              psychohistory_is_history_ := true },
            (), [(7, 1, 6, true), (7, 2, 6, true)], [EphemerisCall.FlowWithFixedStep 2]) ∧
        ((), [((0 : ℚ), (5 : ℚ)), (1, 5), (2, 5)]) =
          listPileUpOps.FlowWithFixedStep ()
            (coastingPileUp.authoritative listPileUpOps) 2 1) ∧
      (PileUp.AdvanceTime listPileUpOps thrustingPileUp () [] (5 / 2) 1 ()
        = some
          ({ thrustingPileUp with
              psychohistory_ := [(0, 5), (5 / 2, 5)]
              psychohistory_is_history_ := true },
            (), [(7, 5 / 2, 6, true)],
            [EphemerisCall.FlowWithAdaptiveStep (fun _ => (1, 0, 0)) (5 / 2)]) ∧
        ((), [((0 : ℚ), (5 : ℚ)), (5 / 2, 5)]) =
          listPileUpOps.FlowWithAdaptiveStep ()
            (thrustingPileUp.authoritative listPileUpOps)
            (fun _ => thrustingPileUp.acceleration) (5 / 2) ()) ∧
      (PileUp.AdvanceTime listPileUpOps coastingPileUp () [] (5 / 2) 1 ()
        = some
          ({ coastingPileUp with
              psychohistory_ := [(0, 5), (1, 5), (2, 5), (5 / 2, 5), (2, 5)]
              psychohistory_is_history_ := false },
            (), [(7, 1, 6, true), (7, 2, 6, true), (7, 5 / 2, 6, true), (7, 2, 6, false)],
            [EphemerisCall.FlowWithFixedStep (5 / 2),
              EphemerisCall.FlowWithAdaptiveStep listPileUpOps.NoIntrinsicAcceleration
                (5 / 2)]) ∧
        ((∃ c ∈ [EphemerisCall.FlowWithFixedStep ((5 : ℚ) / 2),
              EphemerisCall.FlowWithAdaptiveStep listPileUpOps.NoIntrinsicAcceleration (5 / 2)],
            c.isFixedStep = true) ↔ coastingPileUp.intrinsic_force_ = (0, 0, 0))) :=
  have h1 : PileUp.AdvanceTime listPileUpOps coastingPileUp () [] 2 1 ()
      = some
        ({ coastingPileUp with
            psychohistory_ := [(0, 5), (1, 5), (2, 5)]
            psychohistory_is_history_ := true },
          (), [(7, 1, 6, true), (7, 2, 6, true)], [EphemerisCall.FlowWithFixedStep 2]) := by
    with_unfolding_all rfl
  have h2 : PileUp.AdvanceTime listPileUpOps thrustingPileUp () [] (5 / 2) 1 ()
      = some
        ({ thrustingPileUp with
            psychohistory_ := [(0, 5), (5 / 2, 5)]
            psychohistory_is_history_ := true },
          (), [(7, 5 / 2, 6, true)],
          [EphemerisCall.FlowWithAdaptiveStep (fun _ => (1, 0, 0)) (5 / 2)]) := by
    with_unfolding_all rfl
  have h3 : PileUp.AdvanceTime listPileUpOps coastingPileUp () [] (5 / 2) 1 ()
      = some
        ({ coastingPileUp with
            psychohistory_ := [(0, 5), (1, 5), (2, 5), (5 / 2, 5), (2, 5)]
            psychohistory_is_history_ := false },
          (), [(7, 1, 6, true), (7, 2, 6, true), (7, 5 / 2, 6, true), (7, 2, 6, false)],
          [EphemerisCall.FlowWithFixedStep (5 / 2),
            EphemerisCall.FlowWithAdaptiveStep listPileUpOps.NoIntrinsicAcceleration
              (5 / 2)]) := by
    with_unfolding_all rfl
  ⟨⟨h1, ((AdvanceTime_flow_and_flag listPileUpOps coastingPileUp _ () _ [] _ 2 1 () _
      h1).2.2.2.2.1 rfl (by with_unfolding_all decide)).2⟩,
    ⟨h2, (AdvanceTime_flow_and_flag listPileUpOps thrustingPileUp _ () _ [] _ (5 / 2) 1 () _
      h2).2.2.2.1 (by with_unfolding_all decide)⟩,
    ⟨h3, (AdvanceTime_flow_and_flag listPileUpOps coastingPileUp _ () _ [] _ (5 / 2) 1 () _
      h3).1⟩⟩

end pile_up_claims

end ksp_plugin
end principia
